import Mathlib

/-! # Three-effect evaporator calculator: saturation table, density table, balance solver

A shallow embedding of `main.go`.  The Go program computes with `float64`; here every
`float64` is an exact rational (`ℚ`), so the statements below are statements about the
program's arithmetic carried out exactly.  A quotient `x / y` of the source is the rational
quotient; the two agree whenever `y` is non-zero, and the proofs below establish that for
the divisors they rely on (the sum of the floored differentials, the widths of the table
brackets, the effect flows under the stated hypotheses).  What rounding to `float64` changes
is shown separately: the section on binary64 arithmetic evaluates the flow lines of
`calculateEvaporator` and `BPR` with every operation rounded.
-/

namespace Evaporator

/-! ## Constants and tables -/

/-- Target outlet temperature of the third effect, `TARGET_T3 = 60.0`. -/
def TARGET_T3 : ℚ := 60.0

/-- Target outlet concentration in percent, `TARGET_W3 = 52.30`. -/
def TARGET_W3 : ℚ := 52.30

/-- One row of `steamTable`: absolute pressure (MPa) and saturation temperature (°C). -/
structure SteamPoint where
  pressure : ℚ
  temp : ℚ
  deriving DecidableEq, Inhabited

/-- The saturation table `steamTable`, rows in source order. -/
def steamTable : List SteamPoint :=
  [⟨0.001, 6.69⟩, ⟨0.002, 17.20⟩, ⟨0.003, 23.77⟩, ⟨0.004, 28.66⟩, ⟨0.005, 32.55⟩,
  ⟨0.006, 35.28⟩, ⟨0.007, 38.66⟩, ⟨0.008, 41.16⟩, ⟨0.009, 43.41⟩, ⟨0.01, 45.45⟩,
  ⟨0.015, 53.59⟩, ⟨0.02, 59.66⟩, ⟨0.025, 64.55⟩, ⟨0.03, 68.67⟩, ⟨0.035, 71.75⟩,
  ⟨0.04, 75.41⟩, ⟨0.045, 78.26⟩, ⟨0.05, 80.86⟩, ⟨0.055, 83.24⟩, ⟨0.060, 85.45⟩,
  ⟨0.065, 87.51⟩, ⟨0.07, 89.44⟩, ⟨0.075, 91.26⟩, ⟨0.08, 92.98⟩, ⟨0.085, 94.64⟩,
  ⟨0.09, 96.17⟩, ⟨0.095, 97.66⟩, ⟨0.10, 98.08⟩, ⟨0.1013, 100⟩, ⟨0.105, 101⟩,
  ⟨0.1088, 102⟩, ⟨0.1127, 103⟩, ⟨0.1167, 104⟩, ⟨0.1208, 105⟩, ⟨0.125, 106⟩,
  ⟨0.1294, 107⟩, ⟨0.1339, 108⟩, ⟨0.1385, 109⟩, ⟨0.1433, 110⟩, ⟨0.1481, 111⟩,
  ⟨0.1532, 112⟩, ⟨0.1583, 113⟩, ⟨0.1636, 114⟩, ⟨0.1691, 115⟩, ⟨0.1746, 116⟩,
  ⟨0.1804, 117⟩, ⟨0.1863, 118⟩, ⟨0.1923, 119⟩, ⟨0.1985, 120⟩, ⟨0.2049, 121⟩] ++
  [⟨0.2114, 122⟩, ⟨0.2182, 123⟩, ⟨0.225, 124⟩, ⟨0.2321, 125⟩, ⟨0.2393, 126⟩,
  ⟨0.2467, 127⟩, ⟨0.2543, 128⟩, ⟨0.2621, 129⟩, ⟨0.2701, 130⟩, ⟨0.2783, 131⟩,
  ⟨0.2867, 132⟩, ⟨0.2953, 133⟩, ⟨0.3041, 134⟩, ⟨0.313, 135⟩, ⟨0.3222, 136⟩,
  ⟨0.3317, 137⟩, ⟨0.3414, 138⟩, ⟨0.3513, 139⟩, ⟨0.3614, 140⟩, ⟨0.3718, 141⟩,
  ⟨0.3823, 142⟩, ⟨0.3931, 143⟩, ⟨0.4042, 144⟩, ⟨0.4155, 145⟩, ⟨0.4271, 146⟩,
  ⟨0.4389, 147⟩, ⟨0.451, 148⟩, ⟨0.4633, 149⟩, ⟨0.476, 150⟩, ⟨0.4888, 151⟩,
  ⟨0.5021, 152⟩, ⟨0.5155, 153⟩, ⟨0.5292, 154⟩, ⟨0.537, 155⟩, ⟨0.5577, 156⟩,
  ⟨0.5723, 157⟩, ⟨0.5872, 158⟩, ⟨0.6025, 159⟩, ⟨0.6181, 160⟩, ⟨0.6339, 161⟩,
  ⟨0.6502, 162⟩, ⟨0.6666, 163⟩, ⟨0.6835, 164⟩, ⟨0.7008, 165⟩, ⟨0.7183, 166⟩,
  ⟨0.7362, 167⟩, ⟨0.7544, 168⟩, ⟨0.773, 169⟩, ⟨0.792, 170⟩, ⟨0.8114, 171⟩] ++
  [⟨0.831, 172⟩, ⟨0.8511, 173⟩, ⟨0.8716, 174⟩, ⟨0.8924, 175⟩, ⟨0.9137, 176⟩,
  ⟨0.9353, 177⟩, ⟨0.9573, 178⟩, ⟨0.9797, 179⟩, ⟨1.0197, 180⟩, ⟨1.0259, 181⟩,
  ⟨1.0496, 182⟩, ⟨1.0737, 183⟩, ⟨1.0983, 184⟩, ⟨1.1233, 185⟩, ⟨1.1487, 186⟩,
  ⟨1.1746, 187⟩, ⟨1.201, 188⟩, ⟨1.2278, 189⟩, ⟨1.2551, 190⟩, ⟨1.2829, 191⟩,
  ⟨1.3111, 192⟩, ⟨1.3397, 193⟩, ⟨1.369, 194⟩, ⟨1.3987, 195⟩, ⟨1.4289, 196⟩,
  ⟨1.4596, 197⟩, ⟨1.4909, 198⟩, ⟨1.5225, 199⟩, ⟨1.5548, 200⟩, ⟨1.5876, 201⟩,
  ⟨1.621, 202⟩, ⟨1.6548, 203⟩, ⟨1.6892, 204⟩, ⟨1.7242, 205⟩, ⟨1.7597, 206⟩,
  ⟨1.7959, 207⟩, ⟨1.8326, 208⟩, ⟨1.8699, 209⟩, ⟨1.9077, 210⟩, ⟨1.9462, 211⟩,
  ⟨1.9852, 212⟩, ⟨2.0248, 213⟩, ⟨2.065, 214⟩, ⟨2.1059, 215⟩, ⟨2.1474, 216⟩,
  ⟨2.1896, 217⟩, ⟨2.2323, 218⟩, ⟨2.2757, 219⟩, ⟨2.3198, 220⟩, ⟨2.3645, 221⟩] ++
  [⟨2.4098, 222⟩, ⟨2.4559, 223⟩, ⟨2.5026, 224⟩, ⟨2.55, 225⟩, ⟨2.5981, 226⟩,
  ⟨2.6469, 227⟩, ⟨2.6963, 228⟩, ⟨2.7466, 229⟩, ⟨2.7975, 230⟩, ⟨2.8491, 231⟩,
  ⟨2.901, 232⟩, ⟨2.9546, 233⟩, ⟨3.0085, 234⟩, ⟨3.0631, 235⟩, ⟨3.1185, 236⟩,
  ⟨3.1476, 237⟩, ⟨3.2316, 238⟩, ⟨3.2892, 239⟩, ⟨3.3477, 240⟩, ⟨3.407, 241⟩,
  ⟨3.467, 242⟩, ⟨3.5279, 243⟩, ⟨3.5897, 244⟩, ⟨3.6522, 245⟩, ⟨3.7155, 246⟩,
  ⟨3.7797, 247⟩]

/-- The density table `densityTable`.  The Go value is a map from temperature to a curve
of `{mass fraction %, density}` pairs; it is listed here as key/curve pairs. -/
def densityTable : List (ℚ × List (ℚ × ℚ)) := [
  (20, [(0, 1.000), (10, 1.092), (15, 1.142), (20, 1.195), (25, 1.250), (30, 1.308), (35, 1.368), (40, 1.431), (45, 1.497), (48, 1.540), (50, 1.569), (51, 1.584), (52, 1.599)]),
  (40, [(0, 1.000), (15, 1.126), (20, 1.175), (25, 1.227), (30, 1.282), (35, 1.340), (40, 1.401), (45, 1.465), (48, 1.505), (50, 1.533), (51, 1.547), (52, 1.561)]),
  (50, [(0, 1.000), (20, 1.160), (25, 1.210), (30, 1.263), (35, 1.319), (40, 1.378), (45, 1.440), (48, 1.478), (50, 1.505), (51, 1.519), (52, 1.533)]),
  (55, [(0, 1.000), (30, 1.247), (34, 1.293), (38, 1.345), (42, 1.400), (46, 1.458), (49, 1.500), (50, 1.515), (51, 1.530), (51.8, 1.540)]),
  (60, [(0, 1.000), (32, 1.268), (36, 1.316), (40, 1.368), (44, 1.423), (48, 1.482), (50, 1.512), (51, 1.527), (52, 1.542), (53, 1.557)]),
  (80, [(0, 0.992), (40, 1.315), (45, 1.367), (48, 1.405), (50, 1.433), (51, 1.447), (52, 1.461)]),
  (100, [(0, 0.980), (45, 1.330), (48, 1.365), (50, 1.392), (51, 1.405), (52, 1.418)])]

/-! ## Boiling-point rise -/

/-- The cubic correlation `BPR`. -/
def BPR (w : ℚ) : ℚ :=
  0.00028 * w * w * w - 0.021 * w * w + 0.78 * w - 8.1

/-! ## Saturation table interpolation -/

/-- The loop of `tempToPressure` over a table: `for i := 0; i < len-1; i++` visits the
consecutive rows `a = table[i]`, `b = table[i+1]` in order and returns from inside the loop
at the first pair with `temp >= a.temp && temp <= b.temp`.  `none` means the loop ran to
its end without returning. -/
def tempToPressureLoop : List SteamPoint → ℚ → Option ℚ
  | a :: b :: rest, temp =>
    if temp ≥ a.temp ∧ temp ≤ b.temp then
      let ratio := (temp - a.temp) / (b.temp - a.temp)
      some (a.pressure + ratio * (b.pressure - a.pressure))
    else tempToPressureLoop (b :: rest) temp
  | _, _ => none

/-- The function `tempToPressure`: clamp below the first and above the last row, otherwise
scan for a bracket; the final `return steamTable[0].pressure` is the fall-through. -/
def tempToPressure (temp : ℚ) : ℚ :=
  if temp < steamTable.head!.temp then steamTable.head!.pressure
  else if temp > steamTable.getLast!.temp then steamTable.getLast!.pressure
  else (tempToPressureLoop steamTable temp).getD steamTable.head!.pressure

/-- The loop of `pressureToTemp`, scanning consecutive rows by pressure. -/
def pressureToTempLoop : List SteamPoint → ℚ → Option ℚ
  | a :: b :: rest, pressure =>
    if pressure ≥ a.pressure ∧ pressure ≤ b.pressure then
      let ratio := (pressure - a.pressure) / (b.pressure - a.pressure)
      some (a.temp + ratio * (b.temp - a.temp))
    else pressureToTempLoop (b :: rest) pressure
  | _, _ => none

/-- The function `pressureToTemp`. -/
def pressureToTemp (pressure : ℚ) : ℚ :=
  if pressure < steamTable.head!.pressure then steamTable.head!.temp
  else if pressure > steamTable.getLast!.pressure then steamTable.getLast!.temp
  else (pressureToTempLoop steamTable pressure).getD steamTable.head!.temp

/-! ## Density table interpolation -/

/-- The local variables of the bracket scans in `densityAtTemp`, `concFromTempAndDensity`
(and, with only the `Conc` fields used, of the key scan in `densityFromTempAndConc`).
Go zero-initialises them. -/
structure Bracket where
  lowerConc : ℚ := 0
  upperConc : ℚ := 0
  lowerDensity : ℚ := 0
  upperDensity : ℚ := 0
  foundLower : Bool := false
  foundUpper : Bool := false
  deriving DecidableEq

/-- Keys of `densityTable` after `sort.Float64s`. -/
def sortedTempKeys : List ℚ :=
  (densityTable.map Prod.fst).insertionSort (fun a b => a ≤ b)

/-- The nearest-key loop shared by `densityAtTemp` and `concFromTempAndDensity`:
starting from `closestTemp = tempKeys[0]`, a key replaces the current one only when it is
strictly closer to `temp`. -/
def closestKeyLoop (temp : ℚ) : List ℚ → ℚ × ℚ → ℚ × ℚ
  | [], acc => acc
  | t :: rest, (closestTemp, minDiff) =>
    if |temp - t| < minDiff then closestKeyLoop temp rest (t, |temp - t|)
    else closestKeyLoop temp rest (closestTemp, minDiff)

/-- Curve selection of `densityAtTemp` and `concFromTempAndDensity`: the curve stored under
`temp` when the key exists, otherwise the curve of the nearest key. -/
def selectCurve (temp : ℚ) : List (ℚ × ℚ) :=
  match densityTable.lookup temp with
  | some data => data
  | none =>
    let closestTemp := (closestKeyLoop temp sortedTempKeys
      (sortedTempKeys.head!, |temp - sortedTempKeys.head!|)).1
    (densityTable.lookup closestTemp).getD []

/-- The scan loop of `densityAtTemp` over the entries of a curve, with its `break`. -/
def densityAtTempLoop (conc : ℚ) : List (ℚ × ℚ) → Bracket → Bracket
  | [], s => s
  | (c, d) :: rest, s =>
    let s1 := if c ≤ conc then { s with lowerConc := c, lowerDensity := d, foundLower := true } else s
    if c ≥ conc ∧ s1.foundUpper = false then
      { s1 with upperConc := c, upperDensity := d, foundUpper := true }
    else densityAtTempLoop conc rest s1

/-- The function `densityAtTemp`. -/
def densityAtTemp (temp conc : ℚ) : ℚ :=
  let s := densityAtTempLoop conc (selectCurve temp) {}
  if s.foundLower = false ∧ s.foundUpper = false then 1.0
  else if s.lowerConc = s.upperConc then s.lowerDensity
  else
    let ratio := (conc - s.lowerConc) / (s.upperConc - s.lowerConc)
    s.lowerDensity + ratio * (s.upperDensity - s.lowerDensity)

/-- The key scan of `densityFromTempAndConc` over the sorted keys: returns
`(lowerTemp, upperTemp, lowerFound, upperFound)`. -/
def tempBracketLoop (temp : ℚ) : List ℚ → ℚ × ℚ × Bool × Bool → ℚ × ℚ × Bool × Bool
  | [], s => s
  | t :: rest, (lowerTemp, upperTemp, lowerFound, upperFound) =>
    let lo : ℚ × Bool := if t ≤ temp then (t, true) else (lowerTemp, lowerFound)
    if t ≥ temp ∧ upperFound = false then (lo.1, t, lo.2, true)
    else tempBracketLoop temp rest (lo.1, upperTemp, lo.2, upperFound)

/-- The function `densityFromTempAndConc`. -/
def densityFromTempAndConc (temp conc : ℚ) : ℚ :=
  match tempBracketLoop temp sortedTempKeys (0, 0, false, false) with
  | (lowerTemp, upperTemp, lowerFound, upperFound) =>
    if lowerFound = false ∧ upperFound = false then 1.0
    else if lowerTemp = upperTemp then densityAtTemp temp conc
    else
      let densityLower := densityAtTemp lowerTemp conc
      let densityUpper := densityAtTemp upperTemp conc
      if lowerTemp = upperTemp then densityLower
      else
        let ratio := (temp - lowerTemp) / (upperTemp - lowerTemp)
        densityLower + ratio * (densityUpper - densityLower)

/-- The scan loop of `concFromTempAndDensity`, comparing densities. -/
def concFromTempAndDensityLoop (density : ℚ) : List (ℚ × ℚ) → Bracket → Bracket
  | [], s => s
  | (c, d) :: rest, s =>
    let s1 := if d ≤ density then { s with lowerConc := c, lowerDensity := d, foundLower := true } else s
    if d ≥ density ∧ s1.foundUpper = false then
      { s1 with upperConc := c, upperDensity := d, foundUpper := true }
    else concFromTempAndDensityLoop density rest s1

/-- The function `concFromTempAndDensity`. -/
def concFromTempAndDensity (temp density : ℚ) : ℚ :=
  let s := concFromTempAndDensityLoop density (selectCurve temp) {}
  if s.foundLower = false ∧ s.foundUpper = false then 0.0
  else if s.lowerDensity = s.upperDensity then s.lowerConc
  else
    let ratio := (density - s.lowerDensity) / (s.upperDensity - s.lowerDensity)
    s.lowerConc + ratio * (s.upperConc - s.lowerConc)

/-! ## Balance solver -/

/-- The record `EvaporatorResult`. -/
structure EvaporatorResult where
  F0 : ℚ
  F1 : ℚ
  F2 : ℚ
  F3 : ℚ
  W0 : ℚ
  W1 : ℚ
  W2 : ℚ
  W3 : ℚ
  V1 : ℚ
  V2 : ℚ
  V3 : ℚ
  BPR1 : ℚ
  BPR2 : ℚ
  BPR3 : ℚ
  Density0 : ℚ
  Density1 : ℚ
  Density2 : ℚ
  Density3 : ℚ
  Pset : ℚ
  T3 : ℚ
  R1 : ℚ
  R2 : ℚ
  R3 : ℚ

/-- The floor applied to each temperature differential: `if d <= 0 { d = 1 }`. -/
def floorDiff (d : ℚ) : ℚ := if d ≤ 0 then 1 else d

/-- The function `calculateEvaporator`. -/
def calculateEvaporator (F0 w0_percent TS T1_out T2_out level3 : ℚ) : EvaporatorResult :=
  let F3 := F0 * w0_percent / TARGET_W3
  let Vtotal := F0 - F3
  let tempDiff1 := floorDiff (TS - T1_out)
  let tempDiff2 := floorDiff (T1_out - T2_out)
  let tempDiff3 := floorDiff (T2_out - TARGET_T3)
  let totalDiff := tempDiff1 + tempDiff2 + tempDiff3
  let r1 := tempDiff1 / totalDiff
  let r2 := tempDiff2 / totalDiff
  let r3 := tempDiff3 / totalDiff
  let V1 := Vtotal * r1
  let V2 := Vtotal * r2
  let V3 := Vtotal * r3
  let F1 := F0 - V1
  let w1 := w0_percent * F0 / F1
  let F2 := F1 - V2
  let w2 := w1 * F1 / F2
  let F3calc := F2 - V3
  let w3 := w2 * F2 / F3calc
  let bpr1 := BPR w1
  let bpr2 := BPR w2
  let bpr3 := BPR TARGET_W3
  let density0 := densityFromTempAndConc 60 w0_percent
  let density1 := densityFromTempAndConc 60 w1
  let density2 := densityFromTempAndConc 60 w2
  let density3 := densityFromTempAndConc 60 w3
  let static := level3 * 0.35
  let targetTemp := TARGET_T3 - bpr3 - static
  let Pset := tempToPressure targetTemp
  { F0 := F0, F1 := F1, F2 := F2, F3 := F3calc,
    W0 := w0_percent, W1 := w1, W2 := w2, W3 := w3,
    V1 := V1, V2 := V2, V3 := V3,
    BPR1 := bpr1, BPR2 := bpr2, BPR3 := bpr3,
    Density0 := density0, Density1 := density1, Density2 := density2, Density3 := density3,
    Pset := Pset * 1000,
    T3 := targetTemp,
    R1 := r1, R2 := r2, R3 := r3 }


/-! ## Table invariants used by the proofs -/

/-- A table is increasing when both fields grow strictly from each row to the next. -/
def Increasing (tbl : List SteamPoint) : Prop :=
  tbl.Chain' (fun a b => a.temp < b.temp ∧ a.pressure < b.pressure)

/-- Executable check of `Increasing`, row by row. -/
def increasingRows : List SteamPoint → Bool
  | a :: b :: rest =>
    decide (a.temp < b.temp) && decide (a.pressure < b.pressure) && increasingRows (b :: rest)
  | _ => true

/-- The value interpolated by `tempToPressure` on the bracket `a`, `b`. -/
def pressureBetween (a b : SteamPoint) (temp : ℚ) : ℚ :=
  a.pressure + (temp - a.temp) / (b.temp - a.temp) * (b.pressure - a.pressure)

/-- The value interpolated by `pressureToTemp` on the bracket `a`, `b`. -/
def tempBetween (a b : SteamPoint) (pressure : ℚ) : ℚ :=
  a.temp + (pressure - a.pressure) / (b.pressure - a.pressure) * (b.temp - a.temp)

/-- A density curve is increasing when both the mass fraction and the density grow strictly
from each entry to the next. -/
def CurveIncreasing (curve : List (ℚ × ℚ)) : Prop :=
  curve.Chain' (fun a b => a.1 < b.1 ∧ a.2 < b.2)

/-- Executable check of `CurveIncreasing`, entry by entry. -/
def curveIncreasingRows : List (ℚ × ℚ) → Bool
  | a :: b :: rest =>
    decide (a.1 < b.1) && decide (a.2 < b.2) && curveIncreasingRows (b :: rest)
  | _ => true

/-! ## Binary64 arithmetic

The definitions above compute with exact rationals.  To show what rounding changes, the
definitions below evaluate source lines with every operation rounded to IEEE 754 binary64
(round to nearest, ties to even), each operation rounded on its own (no fused
multiply-add).  A binary64 value is represented by the rational number it denotes; overflow
to infinity and NaN are outside this model, which is evaluated only at concrete inputs
whose intermediate values all stay finite. -/

/-- The power `2 ^ e` for an integer exponent `e`. -/
def pow2 (e : ℤ) : ℚ :=
  if 0 ≤ e then ((2 ^ e.toNat : ℕ) : ℚ) else 1 / ((2 ^ (-e).toNat : ℕ) : ℚ)

/-- The integer nearest to `x`, the even one when `x` lies halfway between two integers. -/
def roundHalfEven (x : ℚ) : ℤ :=
  let f := Rat.floor x
  let r := x - f
  if r < 1 / 2 then f
  else if 1 / 2 < r then f + 1
  else if f % 2 = 0 then f else f + 1

/-- The integer `⌊log₂ n⌋` for `n ≥ 1`, by halving `n` until it is below `2`; the first
argument bounds the number of halvings, and `n` itself is always enough. -/
def log2Halving : ℕ → ℕ → ℕ
  | 0, _ => 0
  | fuel + 1, n => if n < 2 then 0 else log2Halving fuel (n / 2) + 1

/-- The integer `⌊log₂ |q|⌋` for `q ≠ 0`. -/
def floorLog2 (q : ℚ) : ℤ :=
  let e0 : ℤ := (log2Halving q.num.natAbs q.num.natAbs : ℤ) - (log2Halving q.den q.den : ℤ)
  if pow2 e0 ≤ |q| then e0 else e0 - 1

/-- The binary64 value nearest to `q`, ties to even: a multiple of `2 ^ e` with a
significand of at most 53 bits, where `e` is `⌊log₂ |q|⌋ - 52` and at least `-1074`
(the spacing of the subnormal numbers). -/
def roundF64 (q : ℚ) : ℚ :=
  if q = 0 then 0
  else
    let e := max (floorLog2 q - 52) (-1074)
    (roundHalfEven (q / pow2 e) : ℚ) * pow2 e

/-- The function `BPR` in binary64: the constants are the nearest binary64 values and the
expression `0.00028*w*w*w - 0.021*w*w + 0.78*w - 8.1` is evaluated left to right. -/
def BPRF64 (w : ℚ) : ℚ :=
  let t3 := roundF64 (roundF64 (roundF64 (roundF64 0.00028 * w) * w) * w)
  let t2 := roundF64 (roundF64 (roundF64 0.021 * w) * w)
  let t1 := roundF64 (roundF64 0.78 * w)
  roundF64 (roundF64 (roundF64 (t3 - t2) + t1) - roundF64 8.1)

/-- The flow fields of `EvaporatorResult` that lines 285-322 of `calculateEvaporator`
compute. -/
structure FlowsF64 where
  F1 : ℚ
  F2 : ℚ
  F3 : ℚ
  W1 : ℚ
  W2 : ℚ
  W3 : ℚ
  V1 : ℚ
  V2 : ℚ
  V3 : ℚ
  R1 : ℚ
  R2 : ℚ
  R3 : ℚ

/-- Lines 285-322 of `calculateEvaporator` in binary64, with the fields of its result that
they determine (`F3` is the propagated `F3calc`).  The arguments are binary64 values;
`level3` is not read by these lines. -/
def calculateEvaporatorF64 (F0 w0_percent TS T1_out T2_out _level3 : ℚ) : FlowsF64 :=
  let F3 := roundF64 (roundF64 (F0 * w0_percent) / roundF64 TARGET_W3)
  let Vtotal := roundF64 (F0 - F3)
  let tempDiff1 := floorDiff (roundF64 (TS - T1_out))
  let tempDiff2 := floorDiff (roundF64 (T1_out - T2_out))
  let tempDiff3 := floorDiff (roundF64 (T2_out - roundF64 TARGET_T3))
  let totalDiff := roundF64 (roundF64 (tempDiff1 + tempDiff2) + tempDiff3)
  let r1 := roundF64 (tempDiff1 / totalDiff)
  let r2 := roundF64 (tempDiff2 / totalDiff)
  let r3 := roundF64 (tempDiff3 / totalDiff)
  let V1 := roundF64 (Vtotal * r1)
  let V2 := roundF64 (Vtotal * r2)
  let V3 := roundF64 (Vtotal * r3)
  let F1 := roundF64 (F0 - V1)
  let w1 := roundF64 (roundF64 (w0_percent * F0) / F1)
  let F2 := roundF64 (F1 - V2)
  let w2 := roundF64 (roundF64 (w1 * F1) / F2)
  let F3calc := roundF64 (F2 - V3)
  let w3 := roundF64 (roundF64 (w2 * F2) / F3calc)
  { F1 := F1, F2 := F2, F3 := F3calc, W1 := w1, W2 := w2, W3 := w3,
    V1 := V1, V2 := V2, V3 := V3, R1 := r1, R2 := r2, R3 := r3 }

/-! ## Projections of the solver's result -/

section Projections

variable (F0 w0 TS T1 T2 lvl : ℚ)

theorem calc_R1 : (calculateEvaporator F0 w0 TS T1 T2 lvl).R1 =
    floorDiff (TS - T1) /
      (floorDiff (TS - T1) + floorDiff (T1 - T2) + floorDiff (T2 - TARGET_T3)) := rfl

theorem calc_R2 : (calculateEvaporator F0 w0 TS T1 T2 lvl).R2 =
    floorDiff (T1 - T2) /
      (floorDiff (TS - T1) + floorDiff (T1 - T2) + floorDiff (T2 - TARGET_T3)) := rfl

theorem calc_R3 : (calculateEvaporator F0 w0 TS T1 T2 lvl).R3 =
    floorDiff (T2 - TARGET_T3) /
      (floorDiff (TS - T1) + floorDiff (T1 - T2) + floorDiff (T2 - TARGET_T3)) := rfl

theorem calc_V1 : (calculateEvaporator F0 w0 TS T1 T2 lvl).V1 =
    (F0 - F0 * w0 / TARGET_W3) * (calculateEvaporator F0 w0 TS T1 T2 lvl).R1 := rfl

theorem calc_V2 : (calculateEvaporator F0 w0 TS T1 T2 lvl).V2 =
    (F0 - F0 * w0 / TARGET_W3) * (calculateEvaporator F0 w0 TS T1 T2 lvl).R2 := rfl

theorem calc_V3 : (calculateEvaporator F0 w0 TS T1 T2 lvl).V3 =
    (F0 - F0 * w0 / TARGET_W3) * (calculateEvaporator F0 w0 TS T1 T2 lvl).R3 := rfl

theorem calc_F1 : (calculateEvaporator F0 w0 TS T1 T2 lvl).F1 =
    F0 - (calculateEvaporator F0 w0 TS T1 T2 lvl).V1 := rfl

theorem calc_F2 : (calculateEvaporator F0 w0 TS T1 T2 lvl).F2 =
    (calculateEvaporator F0 w0 TS T1 T2 lvl).F1 - (calculateEvaporator F0 w0 TS T1 T2 lvl).V2 := rfl

theorem calc_F3 : (calculateEvaporator F0 w0 TS T1 T2 lvl).F3 =
    (calculateEvaporator F0 w0 TS T1 T2 lvl).F2 - (calculateEvaporator F0 w0 TS T1 T2 lvl).V3 := rfl

theorem calc_W1 : (calculateEvaporator F0 w0 TS T1 T2 lvl).W1 =
    w0 * F0 / (calculateEvaporator F0 w0 TS T1 T2 lvl).F1 := rfl

theorem calc_W2 : (calculateEvaporator F0 w0 TS T1 T2 lvl).W2 =
    (calculateEvaporator F0 w0 TS T1 T2 lvl).W1 * (calculateEvaporator F0 w0 TS T1 T2 lvl).F1 /
      (calculateEvaporator F0 w0 TS T1 T2 lvl).F2 := rfl

theorem calc_W3 : (calculateEvaporator F0 w0 TS T1 T2 lvl).W3 =
    (calculateEvaporator F0 w0 TS T1 T2 lvl).W2 * (calculateEvaporator F0 w0 TS T1 T2 lvl).F2 /
      (calculateEvaporator F0 w0 TS T1 T2 lvl).F3 := rfl

theorem calc_BPR3 : (calculateEvaporator F0 w0 TS T1 T2 lvl).BPR3 = BPR TARGET_W3 := rfl

theorem calc_T3 : (calculateEvaporator F0 w0 TS T1 T2 lvl).T3 =
    TARGET_T3 - BPR TARGET_W3 - lvl * 0.35 := rfl

theorem calc_Pset : (calculateEvaporator F0 w0 TS T1 T2 lvl).Pset =
    tempToPressure (calculateEvaporator F0 w0 TS T1 T2 lvl).T3 * 1000 := rfl

end Projections

/-! ## Load allocation -/

theorem floorDiff_pos (d : ℚ) : 0 < floorDiff d := by
  unfold floorDiff
  split_ifs with h
  · exact one_pos
  · exact lt_of_not_ge h

theorem ratios_sum (F0 w0 TS T1 T2 lvl : ℚ) :
    (calculateEvaporator F0 w0 TS T1 T2 lvl).R1 + (calculateEvaporator F0 w0 TS T1 T2 lvl).R2
      + (calculateEvaporator F0 w0 TS T1 T2 lvl).R3 = 1 := by
  have h1 := floorDiff_pos (TS - T1)
  have h2 := floorDiff_pos (T1 - T2)
  have h3 := floorDiff_pos (T2 - TARGET_T3)
  have hs : floorDiff (TS - T1) + floorDiff (T1 - T2) + floorDiff (T2 - TARGET_T3) ≠ 0 := by
    linarith
  rw [calc_R1, calc_R2, calc_R3]
  field_simp

theorem ratios_pos (F0 w0 TS T1 T2 lvl : ℚ) :
    0 < (calculateEvaporator F0 w0 TS T1 T2 lvl).R1 ∧
    0 < (calculateEvaporator F0 w0 TS T1 T2 lvl).R2 ∧
    0 < (calculateEvaporator F0 w0 TS T1 T2 lvl).R3 := by
  have h1 := floorDiff_pos (TS - T1)
  have h2 := floorDiff_pos (T1 - T2)
  have h3 := floorDiff_pos (T2 - TARGET_T3)
  have hs : 0 < floorDiff (TS - T1) + floorDiff (T1 - T2) + floorDiff (T2 - TARGET_T3) := by
    linarith
  rw [calc_R1, calc_R2, calc_R3]
  exact ⟨div_pos h1 hs, div_pos h2 hs, div_pos h3 hs⟩

theorem propagated_F3 (F0 w0 TS T1 T2 lvl : ℚ) :
    (calculateEvaporator F0 w0 TS T1 T2 lvl).F3 = F0 * w0 / 52.30 := by
  have hsum := ratios_sum F0 w0 TS T1 T2 lvl
  rw [calc_F3, calc_F2, calc_F1, calc_V1, calc_V2, calc_V3]
  unfold TARGET_W3
  linear_combination (-(F0 - F0 * w0 / 52.30)) * hsum

/-- C1: for every input combination the allocation ratios of `calculateEvaporator` sum to
exactly one and each ratio is strictly positive, floored differentials included. -/
theorem allocation_ratios_sum_to_one (F0 w0 TS T1_out T2_out level3 : ℚ) :
    (calculateEvaporator F0 w0 TS T1_out T2_out level3).R1
        + (calculateEvaporator F0 w0 TS T1_out T2_out level3).R2
        + (calculateEvaporator F0 w0 TS T1_out T2_out level3).R3 = 1 ∧
    0 < (calculateEvaporator F0 w0 TS T1_out T2_out level3).R1 ∧
    0 < (calculateEvaporator F0 w0 TS T1_out T2_out level3).R2 ∧
    0 < (calculateEvaporator F0 w0 TS T1_out T2_out level3).R3 :=
  ⟨ratios_sum F0 w0 TS T1_out T2_out level3, ratios_pos F0 w0 TS T1_out T2_out level3⟩

/-- C2, over exact arithmetic: for a positive feed flow and a feed concentration strictly
between 0 and 52.30, the reported `F3` (the propagated `F2 - V3`) equals `F0 * w0 / 52.30`
and is below `F0`. -/
theorem outlet_flow_matches_target (F0 w0 TS T1_out T2_out level3 : ℚ)
    (hF : 0 < F0) (_hw : 0 < w0) (hw2 : w0 < 52.30) :
    (calculateEvaporator F0 w0 TS T1_out T2_out level3).F3 = F0 * w0 / 52.30 ∧
    (calculateEvaporator F0 w0 TS T1_out T2_out level3).F3 < F0 := by
  rw [propagated_F3]
  refine ⟨rfl, ?_⟩
  rw [div_lt_iff₀ (by norm_num)]
  nlinarith

theorem outlet_flow_matches_target_witness :
    (calculateEvaporator 5000 20 120 100 80 0.5).F3 = 5000 * 20 / 52.30 ∧
    (calculateEvaporator 5000 20 120 100 80 0.5).F3 < 5000 :=
  outlet_flow_matches_target 5000 20 120 100 80 0.5 (by norm_num) (by norm_num) (by norm_num)

/-- C3: the end-to-end scenario `F0=5000, w0=20, TS=120, T1_out=100, T2_out=80, level3=0.5`
yields equal thirds, `F3 = 5000*20/52.30`, `BPR3 = BPR 52.30`, `T3 = 60 - BPR 52.30 - 0.175`
inside the bracket `43.41..45.45`, and `Pset` a thousand times the value interpolated there. -/
theorem end_to_end_scenario :
    (calculateEvaporator 5000 20 120 100 80 0.5).R1 = 1 / 3 ∧
    (calculateEvaporator 5000 20 120 100 80 0.5).R2 = 1 / 3 ∧
    (calculateEvaporator 5000 20 120 100 80 0.5).R3 = 1 / 3 ∧
    (calculateEvaporator 5000 20 120 100 80 0.5).F3 = 5000 * 20 / 52.30 ∧
    (calculateEvaporator 5000 20 120 100 80 0.5).BPR3 = BPR 52.30 ∧
    (calculateEvaporator 5000 20 120 100 80 0.5).T3 = 60 - BPR 52.30 - 0.175 ∧
    (calculateEvaporator 5000 20 120 100 80 0.5).Pset
      = 1000 * tempToPressure (calculateEvaporator 5000 20 120 100 80 0.5).T3 ∧
    43.41 ≤ (calculateEvaporator 5000 20 120 100 80 0.5).T3 ∧
    (calculateEvaporator 5000 20 120 100 80 0.5).T3 ≤ 45.45 ∧
    (calculateEvaporator 5000 20 120 100 80 0.5).Pset
      = 1000 * (0.009 + ((calculateEvaporator 5000 20 120 100 80 0.5).T3 - 43.41)
          / (45.45 - 43.41) * 0.001) := by
  decide!

/-- C4: for every input, `BPR3` is `BPR 52.30`, `T3 = 60 - BPR 52.30 - 0.35 * level3` and
`Pset = 1000 * tempToPressure T3`; two calls with the same `level3` agree on `T3` and `Pset`
whatever their other five inputs are. -/
theorem setpoint_depends_only_on_level (F0 w0 TS T1_out T2_out level3 : ℚ)
    (F0' w0' TS' T1_out' T2_out' : ℚ) :
    (calculateEvaporator F0 w0 TS T1_out T2_out level3).BPR3 = BPR 52.30 ∧
    (calculateEvaporator F0 w0 TS T1_out T2_out level3).T3 = 60 - BPR 52.30 - 0.35 * level3 ∧
    (calculateEvaporator F0 w0 TS T1_out T2_out level3).Pset
      = 1000 * tempToPressure (calculateEvaporator F0 w0 TS T1_out T2_out level3).T3 ∧
    (calculateEvaporator F0' w0' TS' T1_out' T2_out' level3).T3
      = (calculateEvaporator F0 w0 TS T1_out T2_out level3).T3 ∧
    (calculateEvaporator F0' w0' TS' T1_out' T2_out' level3).Pset
      = (calculateEvaporator F0 w0 TS T1_out T2_out level3).Pset := by
  refine ⟨rfl, ?_, ?_, rfl, rfl⟩
  · rw [calc_T3]
    unfold TARGET_T3 TARGET_W3
    ring
  · rw [calc_Pset]
    ring

/-- C5, over exact arithmetic: for `F0 > 0` and `0 < w0 < 52.30` the propagation conserves
solute mass: the flows fall strictly `F0 > F1 > F2 > F3 > 0`, every `W_k * F_k` equals
`W0 * F0`, the loads are `V_k = (F0 - F0*w0/52.30) * R_k`, the flows are
`F_k = F_(k-1) - V_k`, and `W3 = 52.30`. -/
theorem solute_mass_conserved (F0 w0 TS T1_out T2_out level3 : ℚ)
    (hF : 0 < F0) (hw : 0 < w0) (hw2 : w0 < 52.30) :
    (calculateEvaporator F0 w0 TS T1_out T2_out level3).F0 = F0 ∧
    (calculateEvaporator F0 w0 TS T1_out T2_out level3).W0 = w0 ∧
    (calculateEvaporator F0 w0 TS T1_out T2_out level3).F1 < F0 ∧
    (calculateEvaporator F0 w0 TS T1_out T2_out level3).F2
      < (calculateEvaporator F0 w0 TS T1_out T2_out level3).F1 ∧
    (calculateEvaporator F0 w0 TS T1_out T2_out level3).F3
      < (calculateEvaporator F0 w0 TS T1_out T2_out level3).F2 ∧
    0 < (calculateEvaporator F0 w0 TS T1_out T2_out level3).F3 ∧
    (calculateEvaporator F0 w0 TS T1_out T2_out level3).W1
      * (calculateEvaporator F0 w0 TS T1_out T2_out level3).F1 = w0 * F0 ∧
    (calculateEvaporator F0 w0 TS T1_out T2_out level3).W2
      * (calculateEvaporator F0 w0 TS T1_out T2_out level3).F2 = w0 * F0 ∧
    (calculateEvaporator F0 w0 TS T1_out T2_out level3).W3
      * (calculateEvaporator F0 w0 TS T1_out T2_out level3).F3 = w0 * F0 ∧
    (calculateEvaporator F0 w0 TS T1_out T2_out level3).V1
      = (F0 - F0 * w0 / 52.30) * (calculateEvaporator F0 w0 TS T1_out T2_out level3).R1 ∧
    (calculateEvaporator F0 w0 TS T1_out T2_out level3).V2
      = (F0 - F0 * w0 / 52.30) * (calculateEvaporator F0 w0 TS T1_out T2_out level3).R2 ∧
    (calculateEvaporator F0 w0 TS T1_out T2_out level3).V3
      = (F0 - F0 * w0 / 52.30) * (calculateEvaporator F0 w0 TS T1_out T2_out level3).R3 ∧
    (calculateEvaporator F0 w0 TS T1_out T2_out level3).F1
      = F0 - (calculateEvaporator F0 w0 TS T1_out T2_out level3).V1 ∧
    (calculateEvaporator F0 w0 TS T1_out T2_out level3).F2
      = (calculateEvaporator F0 w0 TS T1_out T2_out level3).F1
        - (calculateEvaporator F0 w0 TS T1_out T2_out level3).V2 ∧
    (calculateEvaporator F0 w0 TS T1_out T2_out level3).F3
      = (calculateEvaporator F0 w0 TS T1_out T2_out level3).F2
        - (calculateEvaporator F0 w0 TS T1_out T2_out level3).V3 ∧
    (calculateEvaporator F0 w0 TS T1_out T2_out level3).W3 = 52.30 := by
  obtain ⟨hr1, hr2, hr3⟩ := ratios_pos F0 w0 TS T1_out T2_out level3
  have hF3 := propagated_F3 F0 w0 TS T1_out T2_out level3
  have hV : 0 < F0 - F0 * w0 / TARGET_W3 := by
    unfold TARGET_W3
    rw [sub_pos, div_lt_iff₀ (by norm_num)]
    nlinarith
  have hV1 : 0 < (calculateEvaporator F0 w0 TS T1_out T2_out level3).V1 := by
    rw [calc_V1]; exact mul_pos hV hr1
  have hV2 : 0 < (calculateEvaporator F0 w0 TS T1_out T2_out level3).V2 := by
    rw [calc_V2]; exact mul_pos hV hr2
  have hV3 : 0 < (calculateEvaporator F0 w0 TS T1_out T2_out level3).V3 := by
    rw [calc_V3]; exact mul_pos hV hr3
  have e1 := calc_F1 F0 w0 TS T1_out T2_out level3
  have e2 := calc_F2 F0 w0 TS T1_out T2_out level3
  have e3 := calc_F3 F0 w0 TS T1_out T2_out level3
  have p3 : 0 < (calculateEvaporator F0 w0 TS T1_out T2_out level3).F3 := by
    rw [hF3]; exact div_pos (mul_pos hF hw) (by norm_num)
  have p2 : 0 < (calculateEvaporator F0 w0 TS T1_out T2_out level3).F2 := by linarith
  have p1 : 0 < (calculateEvaporator F0 w0 TS T1_out T2_out level3).F1 := by linarith
  have m1 : (calculateEvaporator F0 w0 TS T1_out T2_out level3).W1
      * (calculateEvaporator F0 w0 TS T1_out T2_out level3).F1 = w0 * F0 := by
    rw [calc_W1]; exact div_mul_cancel₀ _ p1.ne'
  have m2 : (calculateEvaporator F0 w0 TS T1_out T2_out level3).W2
      * (calculateEvaporator F0 w0 TS T1_out T2_out level3).F2 = w0 * F0 := by
    rw [calc_W2, div_mul_cancel₀ _ p2.ne', m1]
  have m3 : (calculateEvaporator F0 w0 TS T1_out T2_out level3).W3
      * (calculateEvaporator F0 w0 TS T1_out T2_out level3).F3 = w0 * F0 := by
    rw [calc_W3, div_mul_cancel₀ _ p3.ne', m2]
  refine ⟨rfl, rfl, by linarith, by linarith, by linarith, p3, m1, m2, m3,
    rfl, rfl, rfl, rfl, rfl, rfl, ?_⟩
  have hne : F0 * w0 / 52.30 ≠ 0 := by rw [← hF3]; exact p3.ne'
  rw [hF3] at m3
  have h4 : (calculateEvaporator F0 w0 TS T1_out T2_out level3).W3 * (F0 * w0 / 52.30)
      = 52.30 * (F0 * w0 / 52.30) := by
    rw [m3]; field_simp; ring
  exact mul_right_cancel₀ hne h4

theorem solute_mass_conserved_witness :
    (calculateEvaporator 5000 20 120 100 80 0.5).W3 = 52.30 :=
  (solute_mass_conserved 5000 20 120 100 80 0.5
    (by norm_num) (by norm_num) (by norm_num)).2.2.2.2.2.2.2.2.2.2.2.2.2.2.2

/-! ## Saturation table: boundaries -/

theorem steamTable_length : steamTable.length = 176 := rfl

theorem steamTable_head : steamTable.head! = ⟨0.001, 6.69⟩ := rfl

theorem steamTable_getLast : steamTable.getLast! = ⟨3.7797, 247⟩ := rfl

/-- C6: `tempToPressure` clamps at the table boundaries: below `6.69` it returns the first
pressure `0.001`, above `247` the last pressure `3.7797`; so it does at `5.0` and `300.0`. -/
theorem tempToPressure_clamps (temp : ℚ) :
    (temp < 6.69 → tempToPressure temp = 0.001) ∧
    (temp > 247 → tempToPressure temp = 3.7797) ∧
    tempToPressure 5.0 = 0.001 ∧ tempToPressure 300.0 = 3.7797 := by
  refine ⟨fun h => ?_, fun h => ?_, by decide!, by decide!⟩
  · unfold tempToPressure
    rw [steamTable_head, if_pos h]
  · unfold tempToPressure
    rw [steamTable_head, steamTable_getLast, if_neg (by simp only [not_lt]; linarith), if_pos h]

theorem tempToPressure_clamps_witness :
    tempToPressure 6 = 0.001 ∧ tempToPressure 248 = 3.7797 :=
  ⟨(tempToPressure_clamps 6).1 (by norm_num), (tempToPressure_clamps 248).2.1 (by norm_num)⟩

/-! ## Saturation table: brackets -/

theorem increasing_of_rows : ∀ tbl : List SteamPoint, increasingRows tbl = true → Increasing tbl
  | [], _ => List.chain'_nil
  | [_], _ => List.chain'_singleton _
  | a :: b :: rest, h => by
    simp only [increasingRows, Bool.and_eq_true, decide_eq_true_eq] at h
    exact List.Chain'.cons ⟨h.1.1, h.1.2⟩ (increasing_of_rows (b :: rest) h.2)

theorem steamTable_increasing : Increasing steamTable :=
  increasing_of_rows steamTable (by decide!)

theorem increasing_lt {tbl : List SteamPoint} (h : Increasing tbl) {i j : ℕ} (hij : i < j)
    (hj : j < tbl.length) :
    tbl[i].temp < tbl[j].temp ∧ tbl[i].pressure < tbl[j].pressure := by
  haveI : IsTrans SteamPoint (fun a b => a.temp < b.temp ∧ a.pressure < b.pressure) :=
    ⟨fun a b c h1 h2 => ⟨h1.1.trans h2.1, h1.2.trans h2.2⟩⟩
  have hp := List.chain'_iff_pairwise.mp h
  exact List.pairwise_iff_getElem.mp hp i j (hij.trans hj) hj hij

theorem increasing_le {tbl : List SteamPoint} (h : Increasing tbl) {i j : ℕ} (hij : i ≤ j)
    (hj : j < tbl.length) :
    tbl[i].temp ≤ tbl[j].temp ∧ tbl[i].pressure ≤ tbl[j].pressure := by
  rcases Nat.eq_or_lt_of_le hij with h0 | h0
  · subst h0
    exact ⟨le_refl _, le_refl _⟩
  · exact ⟨(increasing_lt h h0 hj).1.le, (increasing_lt h h0 hj).2.le⟩

theorem pressureBetween_left (a b : SteamPoint) : pressureBetween a b a.temp = a.pressure := by
  simp [pressureBetween]

theorem pressureBetween_right (a b : SteamPoint) (h : a.temp < b.temp) :
    pressureBetween a b b.temp = b.pressure := by
  have hne : b.temp - a.temp ≠ 0 := sub_ne_zero.mpr h.ne'
  simp [pressureBetween, div_self hne]

theorem pressureBetween_mono (a b : SteamPoint) (ht : a.temp < b.temp)
    (hp : a.pressure < b.pressure) {t1 t2 : ℚ} (h : t1 ≤ t2) :
    pressureBetween a b t1 ≤ pressureBetween a b t2 := by
  unfold pressureBetween
  have hd : 0 < b.temp - a.temp := sub_pos.mpr ht
  have hq : 0 ≤ b.pressure - a.pressure := (sub_pos.mpr hp).le
  have hr : (t1 - a.temp) / (b.temp - a.temp) ≤ (t2 - a.temp) / (b.temp - a.temp) :=
    div_le_div_of_nonneg_right (by linarith) hd.le
  have := mul_le_mul_of_nonneg_right hr hq
  linarith

theorem pressureBetween_bounds (a b : SteamPoint) (ht : a.temp < b.temp)
    (hp : a.pressure < b.pressure) {t : ℚ} (h1 : a.temp ≤ t) (h2 : t ≤ b.temp) :
    a.pressure ≤ pressureBetween a b t ∧ pressureBetween a b t ≤ b.pressure := by
  have hl := pressureBetween_mono a b ht hp h1
  have hu := pressureBetween_mono a b ht hp h2
  rw [pressureBetween_left] at hl
  rw [pressureBetween_right a b ht] at hu
  exact ⟨hl, hu⟩

theorem pressureBetween_strict (a b : SteamPoint) (ht : a.temp < b.temp)
    (hp : a.pressure < b.pressure) {t : ℚ} (h1 : a.temp < t) (h2 : t < b.temp) :
    a.pressure < pressureBetween a b t ∧ pressureBetween a b t < b.pressure := by
  unfold pressureBetween
  have hd : 0 < b.temp - a.temp := sub_pos.mpr ht
  have hq : 0 < b.pressure - a.pressure := sub_pos.mpr hp
  have hr0 : 0 < (t - a.temp) / (b.temp - a.temp) := div_pos (by linarith) hd
  have hr1 : (t - a.temp) / (b.temp - a.temp) < 1 := by
    rw [div_lt_one hd]; linarith
  constructor
  · have := mul_pos hr0 hq
    linarith
  · have := mul_lt_mul_of_pos_right hr1 hq
    linarith

theorem tempBetween_pressureBetween (a b : SteamPoint) (ht : a.temp < b.temp)
    (hp : a.pressure < b.pressure) (t : ℚ) :
    tempBetween a b (pressureBetween a b t) = t := by
  unfold tempBetween pressureBetween
  have hd : b.temp - a.temp ≠ 0 := sub_ne_zero.mpr ht.ne'
  have hq : b.pressure - a.pressure ≠ 0 := sub_ne_zero.mpr hp.ne'
  field_simp
  ring

theorem tempToPressureLoop_cons (a b : SteamPoint) (rest : List SteamPoint) (t : ℚ) :
    tempToPressureLoop (a :: b :: rest) t =
      if t ≥ a.temp ∧ t ≤ b.temp then some (pressureBetween a b t)
      else tempToPressureLoop (b :: rest) t := rfl

theorem pressureToTempLoop_cons (a b : SteamPoint) (rest : List SteamPoint) (p : ℚ) :
    pressureToTempLoop (a :: b :: rest) p =
      if p ≥ a.pressure ∧ p ≤ b.pressure then some (tempBetween a b p)
      else pressureToTempLoop (b :: rest) p := rfl

/-- On an increasing table, a temperature inside the bracket `i`, `i+1` makes the loop
return the value interpolated on that bracket (also when an earlier bracket matches). -/
theorem tempToPressureLoop_bracket : ∀ (tbl : List SteamPoint), Increasing tbl →
    ∀ (i : ℕ) (hi : i + 1 < tbl.length) (t : ℚ), tbl[i].temp ≤ t → t ≤ tbl[i + 1].temp →
      tempToPressureLoop tbl t = some (pressureBetween tbl[i] tbl[i + 1] t)
  | [], _, i, hi, _, _, _ => absurd hi (by simp)
  | [_], _, i, hi, _, _, _ => absurd hi (by simp)
  | a :: b :: rest, hinc, i, hi, t, h1, h2 => by
    have hinc2 : Increasing (b :: rest) := List.Chain'.tail hinc
    have hab : a.temp < b.temp := (List.chain'_cons.mp hinc).1.1
    rw [tempToPressureLoop_cons]
    by_cases hc : t ≥ a.temp ∧ t ≤ b.temp
    · rw [if_pos hc]
      cases i with
      | zero => rfl
      | succ k =>
        simp only [List.getElem_cons_succ] at h1 h2 ⊢
        have hk : k < (b :: rest).length := by simp at hi ⊢; omega
        have hbk : (b :: rest)[0].temp ≤ (b :: rest)[k].temp :=
          (increasing_le hinc2 (Nat.zero_le k) hk).1
        have hb0 : (b :: rest)[0] = b := rfl
        rw [hb0] at hbk
        have ht : t = b.temp := le_antisymm hc.2 (hbk.trans h1)
        have hk0 : k = 0 := by
          by_contra hne
          have hlt := (increasing_lt hinc2 (Nat.pos_of_ne_zero hne) hk).1
          rw [hb0] at hlt
          linarith
        subst hk0
        subst ht
        simp only [List.getElem_cons_zero]
        rw [pressureBetween_right a b hab, pressureBetween_left]
    · rw [if_neg hc]
      cases i with
      | zero => exact absurd ⟨h1, h2⟩ hc
      | succ k =>
        exact tempToPressureLoop_bracket (b :: rest) hinc2 k (by simp at hi ⊢; omega) t h1 h2

/-- The same for the pressure scan, for a pressure strictly inside the bracket. -/
theorem pressureToTempLoop_bracket : ∀ (tbl : List SteamPoint), Increasing tbl →
    ∀ (i : ℕ) (hi : i + 1 < tbl.length) (p : ℚ), tbl[i].pressure < p → p < tbl[i + 1].pressure →
      pressureToTempLoop tbl p = some (tempBetween tbl[i] tbl[i + 1] p)
  | [], _, i, hi, _, _, _ => absurd hi (by simp)
  | [_], _, i, hi, _, _, _ => absurd hi (by simp)
  | a :: b :: rest, hinc, i, hi, p, h1, h2 => by
    have hinc2 : Increasing (b :: rest) := List.Chain'.tail hinc
    rw [pressureToTempLoop_cons]
    cases i with
    | zero =>
      rw [if_pos ⟨le_of_lt h1, le_of_lt h2⟩]
      rfl
    | succ k =>
      simp only [List.getElem_cons_succ] at h1 h2 ⊢
      have hk : k < (b :: rest).length := by simp at hi ⊢; omega
      have hbk : (b :: rest)[0].pressure ≤ (b :: rest)[k].pressure :=
        (increasing_le hinc2 (Nat.zero_le k) hk).2
      have hb0 : (b :: rest)[0] = b := rfl
      rw [hb0] at hbk
      have hc : ¬ (p ≥ a.pressure ∧ p ≤ b.pressure) := fun hc => by linarith [hc.2]
      rw [if_neg hc]
      exact pressureToTempLoop_bracket (b :: rest) hinc2 k (by simp at hi ⊢; omega) p h1 h2

/-- Every temperature between row `0` and row `j` lies in some bracket of consecutive rows. -/
theorem exists_bracket (tbl : List SteamPoint) (t : ℚ) :
    ∀ (j : ℕ) (hj : j < tbl.length), 0 < j → tbl[0].temp ≤ t → t ≤ tbl[j].temp →
      ∃ (i : ℕ) (hi : i + 1 < tbl.length), tbl[i].temp ≤ t ∧ t ≤ tbl[i + 1].temp
  | 0, _, h0, _, _ => absurd h0 (lt_irrefl 0)
  | k + 1, hj, _, h1, h2 => by
    by_cases hk : t ≤ tbl[k].temp
    · rcases Nat.eq_zero_or_pos k with hz | hpos
      · subst hz
        exact ⟨0, hj, h1, h2⟩
      · exact exists_bracket tbl t k (by omega) hpos h1 hk
    · exact ⟨k, hj, le_of_lt (lt_of_not_ge hk), h2⟩

/-! ## Saturation table: the embedded `steamTable` -/

set_option maxRecDepth 8000

theorem steamTable_first : steamTable[0] = ⟨0.001, 6.69⟩ := rfl

theorem steamTable_last : steamTable[175] = ⟨3.7797, 247⟩ := rfl

theorem steamTable_row_bounds (i : ℕ) (hi : i < steamTable.length) :
    6.69 ≤ steamTable[i].temp ∧ steamTable[i].temp ≤ 247 ∧
    0.001 ≤ steamTable[i].pressure ∧ steamTable[i].pressure ≤ 3.7797 := by
  have h0 := increasing_le steamTable_increasing (Nat.zero_le i) hi
  have hi2 : i ≤ 175 := by rw [steamTable_length] at hi; omega
  have h1 := increasing_le steamTable_increasing hi2 (by rw [steamTable_length]; omega)
  rw [steamTable_first] at h0
  rw [steamTable_last] at h1
  exact ⟨h0.1, h1.1, h0.2, h1.2⟩

/-- Inside the bracket `i`, `i+1` of `steamTable`, `tempToPressure` is the interpolation on
that bracket. -/
theorem tempToPressure_of_bracket (i : ℕ) (hi : i + 1 < steamTable.length) (t : ℚ)
    (h1 : steamTable[i].temp ≤ t) (h2 : t ≤ steamTable[i + 1].temp) :
    tempToPressure t = pressureBetween steamTable[i] steamTable[i + 1] t := by
  have hlo := (steamTable_row_bounds i (by omega)).1
  have hhi := (steamTable_row_bounds (i + 1) hi).2.1
  unfold tempToPressure
  rw [steamTable_head, steamTable_getLast, if_neg (by simp only [not_lt]; linarith),
    if_neg (by simp only [gt_iff_lt, not_lt]; linarith),
    tempToPressureLoop_bracket steamTable steamTable_increasing i hi t h1 h2]
  rfl

theorem tempToPressure_in_range (t : ℚ) (h1 : 6.69 ≤ t) (h2 : t ≤ 247) :
    ∃ (i : ℕ) (hi : i + 1 < steamTable.length), steamTable[i].temp ≤ t ∧
      t ≤ steamTable[i + 1].temp ∧
      tempToPressure t = pressureBetween steamTable[i] steamTable[i + 1] t := by
  have hex := exists_bracket steamTable t 175 (by rw [steamTable_length]; omega) (by omega)
    (by rw [steamTable_first]; exact h1) (by rw [steamTable_last]; exact h2)
  obtain ⟨i, hi, ha, hb⟩ := hex
  exact ⟨i, hi, ha, hb, tempToPressure_of_bracket i hi t ha hb⟩

theorem tempToPressure_below (t : ℚ) (h : t < 6.69) : tempToPressure t = 0.001 := by
  unfold tempToPressure
  rw [steamTable_head, if_pos h]

theorem tempToPressure_above (t : ℚ) (h : t > 247) : tempToPressure t = 3.7797 := by
  unfold tempToPressure
  rw [steamTable_head, steamTable_getLast, if_neg (by simp only [not_lt]; linarith), if_pos h]

theorem tempToPressure_bounds (t : ℚ) :
    0.001 ≤ tempToPressure t ∧ tempToPressure t ≤ 3.7797 := by
  by_cases hlo : t < 6.69
  · rw [tempToPressure_below t hlo]; norm_num
  by_cases hhi : t > 247
  · rw [tempToPressure_above t hhi]; norm_num
  obtain ⟨i, hi, ha, hb, hv⟩ := tempToPressure_in_range t (not_lt.mp hlo) (not_lt.mp hhi)
  have hinc := increasing_lt steamTable_increasing (Nat.lt_succ_self i) hi
  have hbd := pressureBetween_bounds _ _ hinc.1 hinc.2 ha hb
  have r1 := (steamTable_row_bounds i (by omega)).2.2.1
  have r2 := (steamTable_row_bounds (i + 1) hi).2.2.2
  rw [hv]
  exact ⟨r1.trans hbd.1, hbd.2.trans r2⟩

/-- C7: `tempToPressure` is monotonically non-decreasing over all temperatures, inside,
below or above the table range. -/
theorem tempToPressure_monotone (t1 t2 : ℚ) (h : t1 ≤ t2) :
    tempToPressure t1 ≤ tempToPressure t2 := by
  by_cases hlo : t1 < 6.69
  · rw [tempToPressure_below t1 hlo]
    exact (tempToPressure_bounds t2).1
  by_cases hhi : t2 > 247
  · rw [tempToPressure_above t2 hhi]
    exact (tempToPressure_bounds t1).2
  have a1 : 6.69 ≤ t1 := not_lt.mp hlo
  have b2 : t2 ≤ 247 := not_lt.mp hhi
  obtain ⟨i, hi, ia, ib, iv⟩ := tempToPressure_in_range t1 a1 (h.trans b2)
  obtain ⟨j, hj, ja, jb, jv⟩ := tempToPressure_in_range t2 (a1.trans h) b2
  have hinci := increasing_lt steamTable_increasing (Nat.lt_succ_self i) hi
  have hincj := increasing_lt steamTable_increasing (Nat.lt_succ_self j) hj
  rcases lt_trichotomy i j with hij | hij | hij
  · have u1 := (pressureBetween_bounds _ _ hinci.1 hinci.2 ia ib).2
    have u2 := (pressureBetween_bounds _ _ hincj.1 hincj.2 ja jb).1
    have u3 := (increasing_le steamTable_increasing (Nat.succ_le_of_lt hij) (by omega)).2
    rw [iv, jv]
    exact u1.trans (u3.trans u2)
  · subst hij
    rw [iv, jv]
    exact pressureBetween_mono _ _ hinci.1 hinci.2 h
  · have u3 := (increasing_le steamTable_increasing (Nat.succ_le_of_lt hij) (by omega)).1
    have heq : t1 = t2 := le_antisymm h (jb.trans (u3.trans ia))
    rw [heq]

theorem tempToPressure_monotone_witness : tempToPressure 44 ≤ tempToPressure 45 :=
  tempToPressure_monotone 44 45 (by norm_num)

/-- C8: for a temperature strictly between two consecutive table temperatures,
`pressureToTemp (tempToPressure t) = t`. -/
theorem saturation_round_trip (i : ℕ) (hi : i + 1 < steamTable.length) (t : ℚ)
    (h1 : steamTable[i].temp < t) (h2 : t < steamTable[i + 1].temp) :
    pressureToTemp (tempToPressure t) = t := by
  have hinc := increasing_lt steamTable_increasing (Nat.lt_succ_self i) hi
  have hs := pressureBetween_strict _ _ hinc.1 hinc.2 h1 h2
  have r1 := (steamTable_row_bounds i (by omega)).2.2.1
  have r2 := (steamTable_row_bounds (i + 1) hi).2.2.2
  rw [tempToPressure_of_bracket i hi t h1.le h2.le]
  unfold pressureToTemp
  rw [steamTable_head, steamTable_getLast, if_neg (by simp only [not_lt]; linarith),
    if_neg (by simp only [gt_iff_lt, not_lt]; linarith),
    pressureToTempLoop_bracket steamTable steamTable_increasing i hi _ hs.1 hs.2]
  exact tempBetween_pressureBetween _ _ hinc.1 hinc.2 t

theorem saturation_round_trip_witness : pressureToTemp (tempToPressure 44) = 44 :=
  saturation_round_trip 8 (by decide!) 44 (by decide!) (by decide!)

/-- C9: for every index `i` and every temperature in `[steamTable[i].temp,
steamTable[i+1].temp]`, `tempToPressure` returns the linear interpolation on that bracket;
at the temperature of a table row it returns that row's pressure. -/
theorem tempToPressure_interpolates (i : ℕ) (hi : i + 1 < steamTable.length) (temp : ℚ)
    (h1 : steamTable[i].temp ≤ temp) (h2 : temp ≤ steamTable[i + 1].temp) :
    tempToPressure temp = steamTable[i].pressure
      + (temp - steamTable[i].temp) / (steamTable[i + 1].temp - steamTable[i].temp)
        * (steamTable[i + 1].pressure - steamTable[i].pressure) ∧
    tempToPressure steamTable[i].temp = steamTable[i].pressure ∧
    tempToPressure steamTable[i + 1].temp = steamTable[i + 1].pressure := by
  have hinc := increasing_lt steamTable_increasing (Nat.lt_succ_self i) hi
  refine ⟨tempToPressure_of_bracket i hi temp h1 h2, ?_, ?_⟩
  · rw [tempToPressure_of_bracket i hi _ (le_refl _) hinc.1.le, pressureBetween_left]
  · rw [tempToPressure_of_bracket i hi _ hinc.1.le (le_refl _),
      pressureBetween_right _ _ hinc.1]

theorem tempToPressure_interpolates_witness :
    tempToPressure 44 = 0.009 + (44 - 43.41) / (45.45 - 43.41) * (0.01 - 0.009) ∧
    tempToPressure 43.41 = 0.009 ∧ tempToPressure 45.45 = 0.01 :=
  tempToPressure_interpolates 8 (by decide!) 44 (by decide!) (by decide!)

/-! ## Density table -/

/-- C10: `densityAtTemp` is exact at table points: at a key temperature and the fraction of
an entry of its curve it returns that entry's density; so `densityAtTemp 20 52 = 1.599`. -/
theorem densityAtTemp_exact_at_table_points (T : ℚ) (curve : List (ℚ × ℚ)) (c d : ℚ)
    (hT : (T, curve) ∈ densityTable) (he : (c, d) ∈ curve) :
    densityAtTemp T c = d ∧ densityAtTemp 20 52 = 1.599 := by
  have hall : ∀ p ∈ densityTable, ∀ e ∈ p.2, densityAtTemp p.1 e.1 = e.2 := by decide!
  exact ⟨hall (T, curve) hT (c, d) he, by decide!⟩

theorem densityAtTemp_exact_at_table_points_witness :
    densityAtTemp 100 48 = 1.365 ∧ densityAtTemp 20 52 = 1.599 :=
  densityAtTemp_exact_at_table_points 100
    [(0, 0.980), (45, 1.330), (48, 1.365), (50, 1.392), (51, 1.405), (52, 1.418)] 48 1.365
    (by decide!) (by decide!)


/-- C11: at `conc = 49.5` on the 20 °C curve the scan brackets the entries `48 / 1.540` and
`50 / 1.569` and `densityAtTemp` returns the interpolation at ratio `0.75`, which is
`1.56175`; the midpoint `1.5545` of the two densities is the value at `conc = 49`. -/
theorem densityAtTemp_between_48_and_50 :
    densityAtTemp 20 49.5 = 1.540 + (49.5 - 48) / (50 - 48) * (1.569 - 1.540) ∧
    densityAtTemp 20 49.5 = 1.56175 ∧
    densityAtTemp 20 49 = (1.540 + 1.569) / 2 := by
  decide!

/-- C11, as stated, fails: `densityAtTemp 20 49.5` is not `1.5545`. -/
theorem densityAtTemp_49_5_not_midpoint : ¬ (densityAtTemp 20 49.5 = 1.5545) := by
  decide!

/-- C12: outside the fractions of a curve `densityAtTemp` does not return the boundary
density.  Above the last entry the upper bracket keeps its zero initial value, so
`densityAtTemp 20 60` is `1.599 + (60 - 52) / (0 - 52) * (0 - 1.599) = 1.845`; below the
first entry the lower bracket keeps its zero initial value, so `densityAtTemp 20 (-1)` is
`0`.  At the boundary fractions themselves the boundary densities are returned. -/
theorem densityAtTemp_outside_curve :
    densityAtTemp 20 60 = 1.845 ∧ densityAtTemp 20 60 ≠ 1.599 ∧
    densityAtTemp 20 (-1) = 0 ∧ densityAtTemp 20 (-1) ≠ 1.000 ∧
    densityAtTemp 20 52 = 1.599 ∧ densityAtTemp 20 0 = 1.000 := by
  decide!

/-- C14: above the highest key `densityFromTempAndConc` does not clamp.  At `temp = 110`,
`conc = 52` the upper key keeps its zero initial value, the curve nearest to `0` (the
20 °C curve) is used for it, and the result is
`1.418 + (110 - 100) / (0 - 100) * (1.599 - 1.418) = 1.3999`, not `densityAtTemp 100 52`. -/
theorem densityFromTempAndConc_above_keys :
    densityFromTempAndConc 110 52 = 1.3999 ∧ densityAtTemp 100 52 = 1.418 ∧
    densityFromTempAndConc 110 52 ≠ densityAtTemp 100 52 ∧
    densityFromTempAndConc 10 52 = densityAtTemp 20 52 := by
  decide!

/-! ## Table invariants -/

theorem curveIncreasing_of_rows :
    ∀ curve : List (ℚ × ℚ), curveIncreasingRows curve = true → CurveIncreasing curve
  | [], _ => List.chain'_nil
  | [_], _ => List.chain'_singleton _
  | a :: b :: rest, h => by
    simp only [curveIncreasingRows, Bool.and_eq_true, decide_eq_true_eq] at h
    exact List.Chain'.cons ⟨h.1.1, h.1.2⟩ (curveIncreasing_of_rows (b :: rest) h.2)

theorem densityTable_rows : ∀ p ∈ densityTable, curveIncreasingRows p.2 = true := by
  decide!

theorem densityTable_increasing (T : ℚ) (curve : List (ℚ × ℚ))
    (h : (T, curve) ∈ densityTable) : CurveIncreasing curve :=
  curveIncreasing_of_rows curve (densityTable_rows (T, curve) h)

theorem densityTable_keys : densityTable.map Prod.fst = [20, 40, 50, 55, 60, 80, 100] := by
  decide!

theorem sortedTempKeys_eq : sortedTempKeys = [20, 40, 50, 55, 60, 80, 100] := by
  decide!

/-- C17: `steamTable` is strictly increasing in pressure and temperature from each row to
the next, from `(0.001, 6.69)` to `(3.7797, 247)`, and each of the seven curves of
`densityTable` (keys 20, 40, 50, 55, 60, 80, 100) is strictly increasing in mass fraction
and density from each entry to the next. -/
theorem tables_strictly_increasing :
    steamTable.Chain' (fun a b => a.pressure < b.pressure ∧ a.temp < b.temp) ∧
    steamTable.head? = some ⟨0.001, 6.69⟩ ∧ steamTable.getLast? = some ⟨3.7797, 247⟩ ∧
    densityTable.map Prod.fst = [20, 40, 50, 55, 60, 80, 100] ∧
    (densityTable.map Prod.snd).Forall
      (fun curve => curve.Chain' (fun a b => a.1 < b.1 ∧ a.2 < b.2)) := by
  refine ⟨?_, rfl, rfl, densityTable_keys, ?_⟩
  · exact List.Chain'.imp (fun a b h => ⟨h.2, h.1⟩) steamTable_increasing
  · rw [List.forall_iff_forall_mem]
    intro curve hc
    obtain ⟨p, hp, rfl⟩ := List.mem_map.mp hc
    exact densityTable_increasing p.1 p.2 hp

/-! ## Boiling-point rise -/

/-- C20, over exact arithmetic: `BPR` is the cubic `0.00028*w^3 - 0.021*w^2 + 0.78*w - 8.1`,
it is strictly increasing, and `BPR 0 = -8.1`. -/
theorem BPR_strictly_increasing (w1 w2 : ℚ) (h : w1 < w2) :
    BPR w1 < BPR w2 ∧
    BPR w1 = 0.00028 * w1 ^ 3 - 0.021 * w1 ^ 2 + 0.78 * w1 - 8.1 ∧
    BPR 0 = -8.1 := by
  refine ⟨?_, by unfold BPR; ring, by unfold BPR; norm_num⟩
  have hd : 0 < w2 - w1 := sub_pos.mpr h
  have hq : 0 < 0.00028 * (w1 ^ 2 + w1 * w2 + w2 ^ 2) - 0.021 * (w1 + w2) + (0.78 : ℚ) := by
    nlinarith [sq_nonneg (w1 + w2 - 50), sq_nonneg (w1 - w2), sq_nonneg (w1 + w2)]
  have hm := mul_pos hd hq
  unfold BPR
  nlinarith

theorem BPR_strictly_increasing_witness : BPR 45 < BPR 52.30 :=
  (BPR_strictly_increasing 45 52.30 (by norm_num)).1


/-! ## Density table: interpolation between curves -/

theorem tempBracketLoop_below (temp t : ℚ) (rest : List ℚ) (l u : ℚ) (fl : Bool)
    (h : t < temp) :
    tempBracketLoop temp (t :: rest) (l, u, fl, false)
      = tempBracketLoop temp rest (t, u, true, false) := by
  simp only [tempBracketLoop, if_pos h.le, ge_iff_le, not_le.mpr h, false_and, if_false]

theorem tempBracketLoop_above (temp t : ℚ) (rest : List ℚ) (l u : ℚ) (fl : Bool)
    (h : temp < t) :
    tempBracketLoop temp (t :: rest) (l, u, fl, false) = (l, t, fl, true) := by
  simp only [tempBracketLoop, if_neg (not_le.mpr h), ge_iff_le, h.le, and_self, if_true]

theorem densityFromTempAndConc_of_bracket (temp conc lo hi : ℚ) (fl fu : Bool)
    (h : tempBracketLoop temp sortedTempKeys (0, 0, false, false) = (lo, hi, fl, fu))
    (hf : fl = true ∨ fu = true) (hne : lo ≠ hi) :
    densityFromTempAndConc temp conc = densityAtTemp lo conc
      + (temp - lo) / (hi - lo) * (densityAtTemp hi conc - densityAtTemp lo conc) := by
  unfold densityFromTempAndConc
  rw [h]
  rcases hf with hf | hf <;> simp [hf, hne]

theorem densityFromTempAndConc_at_key (temp conc : ℚ) (h : temp ∈ sortedTempKeys) :
    densityFromTempAndConc temp conc = densityAtTemp temp conc := by
  have hall : ∀ k ∈ sortedTempKeys,
      tempBracketLoop k sortedTempKeys (0, 0, false, false) = (k, k, true, true) := by decide!
  unfold densityFromTempAndConc
  rw [hall temp h]
  simp

theorem tempBracketLoop_between (temp lo hi : ℚ)
    (hadj : (lo, hi) ∈ sortedTempKeys.zip sortedTempKeys.tail) (h1 : lo < temp)
    (h2 : temp < hi) :
    tempBracketLoop temp sortedTempKeys (0, 0, false, false) = (lo, hi, true, true) := by
  rw [sortedTempKeys_eq] at hadj ⊢
  simp only [List.tail_cons, List.zip_cons_cons, List.zip_nil_right, List.mem_cons,
    Prod.mk.injEq, List.mem_singleton, List.not_mem_nil, or_false] at hadj
  rcases hadj with h | h | h | h | h | h <;> obtain ⟨rfl, rfl⟩ := h
  · rw [tempBracketLoop_below _ _ _ _ _ _ h1, tempBracketLoop_above _ _ _ _ _ _ h2]
  · rw [tempBracketLoop_below _ _ _ _ _ _ (by linarith), tempBracketLoop_below _ _ _ _ _ _ h1,
      tempBracketLoop_above _ _ _ _ _ _ h2]
  · rw [tempBracketLoop_below _ _ _ _ _ _ (by linarith),
      tempBracketLoop_below _ _ _ _ _ _ (by linarith), tempBracketLoop_below _ _ _ _ _ _ h1,
      tempBracketLoop_above _ _ _ _ _ _ h2]
  · rw [tempBracketLoop_below _ _ _ _ _ _ (by linarith),
      tempBracketLoop_below _ _ _ _ _ _ (by linarith),
      tempBracketLoop_below _ _ _ _ _ _ (by linarith), tempBracketLoop_below _ _ _ _ _ _ h1,
      tempBracketLoop_above _ _ _ _ _ _ h2]
  · rw [tempBracketLoop_below _ _ _ _ _ _ (by linarith),
      tempBracketLoop_below _ _ _ _ _ _ (by linarith),
      tempBracketLoop_below _ _ _ _ _ _ (by linarith),
      tempBracketLoop_below _ _ _ _ _ _ (by linarith), tempBracketLoop_below _ _ _ _ _ _ h1,
      tempBracketLoop_above _ _ _ _ _ _ h2]
  · rw [tempBracketLoop_below _ _ _ _ _ _ (by linarith),
      tempBracketLoop_below _ _ _ _ _ _ (by linarith),
      tempBracketLoop_below _ _ _ _ _ _ (by linarith),
      tempBracketLoop_below _ _ _ _ _ _ (by linarith),
      tempBracketLoop_below _ _ _ _ _ _ (by linarith), tempBracketLoop_below _ _ _ _ _ _ h1,
      tempBracketLoop_above _ _ _ _ _ _ h2]

/-- C13: at a key of `densityTable`, `densityFromTempAndConc` is `densityAtTemp` at that
key; strictly between two adjacent keys `lo < temp < hi` of the sorted key list it is the
linear interpolation in temperature of `densityAtTemp lo conc` and `densityAtTemp hi conc`. -/
theorem densityFromTempAndConc_interpolates (temp conc lo hi : ℚ) :
    (temp ∈ densityTable.map Prod.fst →
      densityFromTempAndConc temp conc = densityAtTemp temp conc) ∧
    ((lo, hi) ∈ [((20 : ℚ), (40 : ℚ)), (40, 50), (50, 55), (55, 60), (60, 80), (80, 100)] →
      lo < temp → temp < hi →
      densityFromTempAndConc temp conc = densityAtTemp lo conc
        + (temp - lo) / (hi - lo) * (densityAtTemp hi conc - densityAtTemp lo conc)) := by
  constructor
  · intro h
    rw [densityTable_keys, ← sortedTempKeys_eq] at h
    exact densityFromTempAndConc_at_key temp conc h
  · intro hadj h1 h2
    have hz : sortedTempKeys.zip sortedTempKeys.tail
        = [((20 : ℚ), (40 : ℚ)), (40, 50), (50, 55), (55, 60), (60, 80), (80, 100)] := by
      rw [sortedTempKeys_eq]; rfl
    rw [← hz] at hadj
    exact densityFromTempAndConc_of_bracket temp conc lo hi true true
      (tempBracketLoop_between temp lo hi hadj h1 h2) (Or.inl rfl) (by linarith)

theorem densityFromTempAndConc_interpolates_witness :
    densityFromTempAndConc 60 52 = densityAtTemp 60 52 ∧
    densityFromTempAndConc 57 52 = densityAtTemp 55 52
      + (57 - 55) / (60 - 55) * (densityAtTemp 60 52 - densityAtTemp 55 52) :=
  ⟨(densityFromTempAndConc_interpolates 60 52 55 60).1 (by decide!),
   (densityFromTempAndConc_interpolates 57 52 55 60).2 (by decide!) (by norm_num)
     (by norm_num)⟩

/-- Below the lowest key the lower bracket keeps its zero initial value, whose nearest
curve is again the 20 °C curve, so the result is `densityAtTemp 20 conc`. -/
theorem densityFromTempAndConc_below_keys (temp conc : ℚ) (h : temp < 20) :
    densityFromTempAndConc temp conc = densityAtTemp 20 conc := by
  have hl : tempBracketLoop temp sortedTempKeys (0, 0, false, false) = (0, 20, false, true) := by
    rw [sortedTempKeys_eq, tempBracketLoop_above _ _ _ _ _ _ h]
  have hc : selectCurve 0 = selectCurve 20 := by decide!
  have h0 : densityAtTemp 0 conc = densityAtTemp 20 conc := by
    unfold densityAtTemp
    rw [hc]
  rw [densityFromTempAndConc_of_bracket temp conc 0 20 false true hl (Or.inr rfl)
    (by norm_num), h0]
  ring


/-! ## Saturation table: the fall-through is never taken -/

theorem tempToPressureLoop_isSome : ∀ (tbl : List SteamPoint) (i : ℕ)
    (hi : i + 1 < tbl.length) (t : ℚ), tbl[i].temp ≤ t → t ≤ tbl[i + 1].temp →
      (tempToPressureLoop tbl t).isSome = true
  | [], i, hi, _, _, _ => absurd hi (by simp)
  | [_], i, hi, _, _, _ => absurd hi (by simp)
  | a :: b :: rest, i, hi, t, h1, h2 => by
    rw [tempToPressureLoop_cons]
    by_cases hc : t ≥ a.temp ∧ t ≤ b.temp
    · rw [if_pos hc]
      rfl
    · rw [if_neg hc]
      cases i with
      | zero => exact absurd ⟨h1, h2⟩ hc
      | succ k =>
        exact tempToPressureLoop_isSome (b :: rest) k (by simp at hi ⊢; omega) t h1 h2

theorem pressureToTempLoop_isSome : ∀ (tbl : List SteamPoint) (i : ℕ)
    (hi : i + 1 < tbl.length) (p : ℚ), tbl[i].pressure ≤ p → p ≤ tbl[i + 1].pressure →
      (pressureToTempLoop tbl p).isSome = true
  | [], i, hi, _, _, _ => absurd hi (by simp)
  | [_], i, hi, _, _, _ => absurd hi (by simp)
  | a :: b :: rest, i, hi, p, h1, h2 => by
    rw [pressureToTempLoop_cons]
    by_cases hc : p ≥ a.pressure ∧ p ≤ b.pressure
    · rw [if_pos hc]
      rfl
    · rw [if_neg hc]
      cases i with
      | zero => exact absurd ⟨h1, h2⟩ hc
      | succ k =>
        exact pressureToTempLoop_isSome (b :: rest) k (by simp at hi ⊢; omega) p h1 h2

/-- Every pressure between row `0` and row `j` lies in some bracket of consecutive rows. -/
theorem exists_pressure_bracket (tbl : List SteamPoint) (p : ℚ) :
    ∀ (j : ℕ) (hj : j < tbl.length), 0 < j → tbl[0].pressure ≤ p → p ≤ tbl[j].pressure →
      ∃ (i : ℕ) (hi : i + 1 < tbl.length), tbl[i].pressure ≤ p ∧ p ≤ tbl[i + 1].pressure
  | 0, _, h0, _, _ => absurd h0 (lt_irrefl 0)
  | k + 1, hj, _, h1, h2 => by
    by_cases hk : p ≤ tbl[k].pressure
    · rcases Nat.eq_zero_or_pos k with hz | hpos
      · subst hz
        exact ⟨0, hj, h1, h2⟩
      · exact exists_pressure_bracket tbl p k (by omega) hpos h1 hk
    · exact ⟨k, hj, le_of_lt (lt_of_not_ge hk), h2⟩

/-- C18: for `6.69 ≤ temp ≤ 247` the loop of `tempToPressure` returns from inside (so the
final `return steamTable[0].pressure` is not reached), for `0.001 ≤ pressure ≤ 3.7797` so
does the loop of `pressureToTemp`, and the divisor of every bracket is non-zero. -/
theorem fallback_unreachable (temp pressure : ℚ) (i : ℕ) (hi : i + 1 < steamTable.length) :
    (6.69 ≤ temp → temp ≤ 247 →
      ∃ v, tempToPressureLoop steamTable temp = some v ∧ tempToPressure temp = v) ∧
    (0.001 ≤ pressure → pressure ≤ 3.7797 →
      ∃ v, pressureToTempLoop steamTable pressure = some v ∧ pressureToTemp pressure = v) ∧
    steamTable[i + 1].temp - steamTable[i].temp ≠ 0 ∧
    steamTable[i + 1].pressure - steamTable[i].pressure ≠ 0 := by
  have hinc := increasing_lt steamTable_increasing (Nat.lt_succ_self i) hi
  refine ⟨fun h1 h2 => ?_, fun h1 h2 => ?_, sub_ne_zero.mpr hinc.1.ne', sub_ne_zero.mpr hinc.2.ne'⟩
  · obtain ⟨k, hk, ka, kb⟩ := exists_bracket steamTable temp 175
      (by rw [steamTable_length]; omega) (by omega)
      (by rw [steamTable_first]; exact h1) (by rw [steamTable_last]; exact h2)
    obtain ⟨v, hv⟩ := Option.isSome_iff_exists.mp (tempToPressureLoop_isSome steamTable k hk temp ka kb)
    refine ⟨v, hv, ?_⟩
    unfold tempToPressure
    rw [steamTable_head, steamTable_getLast, if_neg (by simp only [not_lt]; linarith),
      if_neg (by simp only [gt_iff_lt, not_lt]; linarith), hv]
    rfl
  · obtain ⟨k, hk, ka, kb⟩ := exists_pressure_bracket steamTable pressure 175
      (by rw [steamTable_length]; omega) (by omega)
      (by rw [steamTable_first]; exact h1) (by rw [steamTable_last]; exact h2)
    obtain ⟨v, hv⟩ :=
      Option.isSome_iff_exists.mp (pressureToTempLoop_isSome steamTable k hk pressure ka kb)
    refine ⟨v, hv, ?_⟩
    unfold pressureToTemp
    rw [steamTable_head, steamTable_getLast, if_neg (by simp only [not_lt]; linarith),
      if_neg (by simp only [gt_iff_lt, not_lt]; linarith), hv]
    rfl

theorem fallback_unreachable_witness :
    (∃ v, tempToPressureLoop steamTable 44 = some v ∧ tempToPressure 44 = v) ∧
    (∃ v, pressureToTempLoop steamTable 0.0095 = some v ∧ pressureToTemp 0.0095 = v) ∧
    (45.45 : ℚ) - 43.41 ≠ 0 ∧ (0.01 : ℚ) - 0.009 ≠ 0 :=
  have h := fallback_unreachable 44 0.0095 8 (by decide!)
  ⟨h.1 (by norm_num) (by norm_num), h.2.1 (by norm_num) (by norm_num), h.2.2.1, h.2.2.2⟩


/-! ## Density table: nearest-curve selection -/

theorem closestKeyLoop_cons (temp t : ℚ) (rest : List ℚ) (c m : ℚ) :
    closestKeyLoop temp (t :: rest) (c, m) =
      if |temp - t| < m then closestKeyLoop temp rest (t, |temp - t|)
      else closestKeyLoop temp rest (c, m) := rfl

/-- Over keys in increasing order that all lie above the current key `c`, the nearest-key
loop ends on a key of minimal distance to `temp`, the lowest one among equally close keys. -/
theorem closestKeyLoop_spec (temp : ℚ) : ∀ (l : List ℚ) (c : ℚ), (∀ k ∈ l, c < k) →
    l.Pairwise (fun a b => a < b) →
    ((closestKeyLoop temp l (c, |temp - c|)).1 = c ∨
      (closestKeyLoop temp l (c, |temp - c|)).1 ∈ l) ∧
    ∀ k, k = c ∨ k ∈ l →
      |temp - (closestKeyLoop temp l (c, |temp - c|)).1| ≤ |temp - k| ∧
      (|temp - k| = |temp - (closestKeyLoop temp l (c, |temp - c|)).1| →
        (closestKeyLoop temp l (c, |temp - c|)).1 ≤ k)
  | [], c, _, _ => by
    refine ⟨Or.inl rfl, fun k hk => ?_⟩
    rcases hk with rfl | hk
    · exact ⟨le_refl _, fun _ => le_refl _⟩
    · exact absurd hk (List.not_mem_nil k)
  | t :: rest, c, hc, hp => by
    have hct : c < t := hc t (List.mem_cons_self t rest)
    have hcr : ∀ k ∈ rest, c < k := fun k hk => hc k (List.mem_cons_of_mem t hk)
    have htr : ∀ k ∈ rest, t < k := (List.pairwise_cons.mp hp).1
    have hpr : rest.Pairwise (fun a b => a < b) := (List.pairwise_cons.mp hp).2
    rw [closestKeyLoop_cons]
    by_cases hlt : |temp - t| < |temp - c|
    · rw [if_pos hlt]
      obtain ⟨hmem, hmin⟩ := closestKeyLoop_spec temp rest t htr hpr
      refine ⟨Or.inr ?_, fun k hk => ?_⟩
      · rcases hmem with h | h
        · rw [h]; exact List.mem_cons_self t rest
        · exact List.mem_cons_of_mem t h
      · rcases hk with rfl | hk
        · have h1 := (hmin t (Or.inl rfl)).1
          exact ⟨by linarith, fun he => by linarith⟩
        · rcases List.mem_cons.mp hk with rfl | hk
          · exact hmin k (Or.inl rfl)
          · exact hmin k (Or.inr hk)
    · rw [if_neg hlt]
      obtain ⟨hmem, hmin⟩ := closestKeyLoop_spec temp rest c hcr hpr
      refine ⟨?_, fun k hk => ?_⟩
      · rcases hmem with h | h
        · exact Or.inl h
        · exact Or.inr (List.mem_cons_of_mem t h)
      · rcases hk with rfl | hk
        · exact hmin k (Or.inl rfl)
        · rcases List.mem_cons.mp hk with rfl | hk
          · have h1 := hmin c (Or.inl rfl)
            refine ⟨by linarith [h1.1, not_lt.mp hlt], fun he => ?_⟩
            rcases hmem with h | h
            · rw [h]; exact hct.le
            · have h2 := h1.2 (by linarith [h1.1, not_lt.mp hlt])
              have h3 := hcr _ h
              linarith
          · exact hmin k (Or.inr hk)

/-- The key chosen by `selectCurve` when `temp` is not a key. -/
theorem closestKey_spec (temp : ℚ) :
    (closestKeyLoop temp sortedTempKeys
        (sortedTempKeys.head!, |temp - sortedTempKeys.head!|)).1 ∈ sortedTempKeys ∧
    ∀ k ∈ sortedTempKeys,
      |temp - (closestKeyLoop temp sortedTempKeys
        (sortedTempKeys.head!, |temp - sortedTempKeys.head!|)).1| ≤ |temp - k| ∧
      (|temp - k| = |temp - (closestKeyLoop temp sortedTempKeys
        (sortedTempKeys.head!, |temp - sortedTempKeys.head!|)).1| →
        (closestKeyLoop temp sortedTempKeys
          (sortedTempKeys.head!, |temp - sortedTempKeys.head!|)).1 ≤ k) := by
  rw [sortedTempKeys_eq]
  have hhead : ([20, 40, 50, 55, 60, 80, 100] : List ℚ).head! = 20 := rfl
  rw [hhead, closestKeyLoop_cons, if_neg (lt_irrefl _)]
  obtain ⟨hmem, hmin⟩ := closestKeyLoop_spec temp [40, 50, 55, 60, 80, 100] 20
    (by intro k hk; simp only [List.mem_cons, List.mem_singleton, List.not_mem_nil,
          or_false] at hk; rcases hk with rfl | rfl | rfl | rfl | rfl | rfl <;> norm_num)
    (by simp only [List.pairwise_cons, List.mem_cons, List.mem_singleton, List.not_mem_nil,
          forall_eq_or_imp, forall_eq, List.Pairwise.nil, and_true, IsEmpty.forall_iff,
          implies_true]; norm_num)
  refine ⟨?_, fun k hk => hmin k (List.mem_cons.mp hk)⟩
  rcases hmem with h | h
  · rw [h]; exact List.mem_cons_self _ _
  · exact List.mem_cons_of_mem _ h

theorem selectCurve_of_not_key (temp : ℚ) (h : temp ∉ densityTable.map Prod.fst) :
    selectCurve temp = (densityTable.lookup (closestKeyLoop temp sortedTempKeys
      (sortedTempKeys.head!, |temp - sortedTempKeys.head!|)).1).getD [] := by
  have hnone : densityTable.lookup temp = none := by
    rw [List.lookup_eq_none_iff]
    intro p hp
    have hne : temp ≠ p.1 := fun he => h (he ▸ List.mem_map_of_mem Prod.fst hp)
    simpa using hne
  unfold selectCurve
  rw [hnone]

theorem selectCurve_of_key : ∀ k ∈ sortedTempKeys,
    selectCurve k = (densityTable.lookup k).getD [] := by
  decide!

/-- C15: for a temperature that is not a key, `densityAtTemp` uses the curve of the key `k`
nearest to it, the lower key when two are equally near, and `concFromTempAndDensity` selects
its curve in the same way; so `densityAtTemp 30 c = densityAtTemp 20 c` and
`densityAtTemp 52.5 c = densityAtTemp 50 c`. -/
theorem nearest_curve_ties_to_lower_key (temp conc density k : ℚ)
    (hnot : temp ∉ densityTable.map Prod.fst) (hk : k ∈ densityTable.map Prod.fst)
    (hmin : ∀ k2 ∈ densityTable.map Prod.fst, |temp - k| ≤ |temp - k2|)
    (htie : ∀ k2 ∈ densityTable.map Prod.fst, |temp - k2| = |temp - k| → k ≤ k2) :
    densityAtTemp temp conc = densityAtTemp k conc ∧
    concFromTempAndDensity temp density = concFromTempAndDensity k density ∧
    densityAtTemp 30 conc = densityAtTemp 20 conc ∧
    densityAtTemp 52.5 conc = densityAtTemp 50 conc := by
  have hkeys : densityTable.map Prod.fst = sortedTempKeys := by
    rw [densityTable_keys, sortedTempKeys_eq]
  rw [hkeys] at hk hmin htie
  obtain ⟨hr, hrmin⟩ := closestKey_spec temp
  have hsel : selectCurve temp = selectCurve k := by
    rw [selectCurve_of_not_key temp hnot, selectCurve_of_key k hk]
    have h1 := hrmin k hk
    have h2 := hmin _ hr
    have h3 := h1.2 (le_antisymm h2 h1.1)
    have h4 := htie _ hr (le_antisymm h1.1 h2)
    rw [le_antisymm h3 h4]
  have h30 : selectCurve 30 = selectCurve 20 := by decide!
  have h52 : selectCurve 52.5 = selectCurve 50 := by decide!
  refine ⟨?_, ?_, ?_, ?_⟩
  · unfold densityAtTemp; rw [hsel]
  · unfold concFromTempAndDensity; rw [hsel]
  · unfold densityAtTemp; rw [h30]
  · unfold densityAtTemp; rw [h52]

theorem nearest_curve_ties_to_lower_key_witness :
    densityAtTemp 30 25 = densityAtTemp 20 25 ∧
    concFromTempAndDensity 30 1.25 = concFromTempAndDensity 20 1.25 :=
  have h := nearest_curve_ties_to_lower_key 30 25 1.25 20 (by decide!) (by decide!)
    (by decide!) (by decide!)
  ⟨h.1, h.2.1⟩


/-! ## Density table: inversion -/

theorem selectCurve_eq_key (temp : ℚ) : ∃ k ∈ sortedTempKeys, selectCurve temp = selectCurve k := by
  by_cases h : temp ∈ densityTable.map Prod.fst
  · rw [densityTable_keys, ← sortedTempKeys_eq] at h
    exact ⟨temp, h, rfl⟩
  · refine ⟨_, (closestKey_spec temp).1, ?_⟩
    rw [selectCurve_of_not_key temp h, selectCurve_of_key _ (closestKey_spec temp).1]

theorem selectCurve_head (temp : ℚ) :
    ∃ d0 rest, selectCurve temp = (0, d0) :: rest := by
  obtain ⟨k, hk, hs⟩ := selectCurve_eq_key temp
  have hall : ∀ k ∈ sortedTempKeys, (selectCurve k).head?.map Prod.fst = some 0 := by decide!
  have hk0 := hall k hk
  rw [← hs] at hk0
  match hc : selectCurve temp with
  | [] => rw [hc] at hk0; simp at hk0
  | (c, d) :: rest =>
    rw [hc] at hk0
    simp only [List.head?_cons, Option.map_some', Option.some.injEq] at hk0
    exact ⟨d, rest, by rw [hk0]⟩

/-- C16: when `density` is strictly below every density of the curve selected for `temp`,
`concFromTempAndDensity temp density` is `0`. -/
theorem concFromTempAndDensity_below_curve (temp density : ℚ)
    (h : ∀ e ∈ selectCurve temp, density < e.2) :
    concFromTempAndDensity temp density = 0 := by
  obtain ⟨d0, rest, hs⟩ := selectCurve_head temp
  have hd : density < d0 := by
    have := h (0, d0) (by rw [hs]; exact List.mem_cons_self _ _)
    exact this
  unfold concFromTempAndDensity
  rw [hs]
  simp [concFromTempAndDensityLoop, not_le.mpr hd, hd.le]

theorem concFromTempAndDensity_below_curve_witness : concFromTempAndDensity 20 0.9 = 0 :=
  concFromTempAndDensity_below_curve 20 0.9 (by decide!)


/-! ## Density table: round trip on a reference curve -/

theorem curveIncreasing_lt {curve : List (ℚ × ℚ)} (h : CurveIncreasing curve) {i j : ℕ}
    (hij : i < j) (hj : j < curve.length) :
    curve[i].1 < curve[j].1 ∧ curve[i].2 < curve[j].2 := by
  haveI : IsTrans (ℚ × ℚ) (fun a b => a.1 < b.1 ∧ a.2 < b.2) :=
    ⟨fun a b c h1 h2 => ⟨h1.1.trans h2.1, h1.2.trans h2.2⟩⟩
  have hp := List.chain'_iff_pairwise.mp h
  exact List.pairwise_iff_getElem.mp hp i j (hij.trans hj) hj hij

theorem densityAtTempLoop_below (conc c d : ℚ) (rest : List (ℚ × ℚ)) (s : Bracket)
    (h : c < conc) :
    densityAtTempLoop conc ((c, d) :: rest) s
      = densityAtTempLoop conc rest
          { s with lowerConc := c, lowerDensity := d, foundLower := true } := by
  simp only [densityAtTempLoop, if_pos h.le, ge_iff_le, not_le.mpr h, false_and, if_false]

theorem densityAtTempLoop_hit (c d : ℚ) (rest : List (ℚ × ℚ)) (s : Bracket)
    (hs : s.foundUpper = false) :
    densityAtTempLoop c ((c, d) :: rest) s
      = { lowerConc := c, upperConc := c, lowerDensity := d, upperDensity := d,
          foundLower := true, foundUpper := true } := by
  simp only [densityAtTempLoop, le_refl, if_true, ge_iff_le, hs, and_self]

theorem densityAtTempLoop_above (conc c d : ℚ) (rest : List (ℚ × ℚ)) (s : Bracket)
    (h : conc < c) (hs : s.foundUpper = false) :
    densityAtTempLoop conc ((c, d) :: rest) s
      = { s with upperConc := c, upperDensity := d, foundUpper := true } := by
  simp only [densityAtTempLoop, if_neg (not_le.mpr h), ge_iff_le, h.le, hs, and_self, if_true]

theorem concFromTempAndDensityLoop_below (density c d : ℚ) (rest : List (ℚ × ℚ))
    (s : Bracket) (h : d < density) :
    concFromTempAndDensityLoop density ((c, d) :: rest) s
      = concFromTempAndDensityLoop density rest
          { s with lowerConc := c, lowerDensity := d, foundLower := true } := by
  simp only [concFromTempAndDensityLoop, if_pos h.le, ge_iff_le, not_le.mpr h, false_and,
    if_false]

theorem concFromTempAndDensityLoop_hit (c d : ℚ) (rest : List (ℚ × ℚ)) (s : Bracket)
    (hs : s.foundUpper = false) :
    concFromTempAndDensityLoop d ((c, d) :: rest) s
      = { lowerConc := c, upperConc := c, lowerDensity := d, upperDensity := d,
          foundLower := true, foundUpper := true } := by
  simp only [concFromTempAndDensityLoop, le_refl, if_true, ge_iff_le, hs, and_self]

theorem concFromTempAndDensityLoop_above (density c d : ℚ) (rest : List (ℚ × ℚ))
    (s : Bracket) (h : density < d) (hs : s.foundUpper = false) :
    concFromTempAndDensityLoop density ((c, d) :: rest) s
      = { s with upperConc := c, upperDensity := d, foundUpper := true } := by
  simp only [concFromTempAndDensityLoop, if_neg (not_le.mpr h), ge_iff_le, h.le, hs, and_self,
    if_true]

/-- At the fraction of entry `i` the scan of `densityAtTemp` ends with both brackets on
entry `i`. -/
theorem densityAtTempLoop_exact : ∀ (curve : List (ℚ × ℚ)), CurveIncreasing curve →
    ∀ (i : ℕ) (hi : i < curve.length) (s : Bracket), s.foundUpper = false →
      densityAtTempLoop curve[i].1 curve s
        = { lowerConc := curve[i].1, upperConc := curve[i].1, lowerDensity := curve[i].2,
            upperDensity := curve[i].2, foundLower := true, foundUpper := true }
  | [], _, i, hi, _, _ => absurd hi (by simp)
  | (c, d) :: rest, hinc, i, hi, s, hs => by
    cases i with
    | zero => exact densityAtTempLoop_hit c d rest s hs
    | succ k =>
      have hlt := (curveIncreasing_lt hinc (Nat.succ_pos k) hi).1
      simp only [List.getElem_cons_succ, List.getElem_cons_zero] at hlt ⊢
      rw [densityAtTempLoop_below _ c d rest s hlt]
      exact densityAtTempLoop_exact rest (List.Chain'.tail hinc) k (by simp at hi ⊢; omega) _ hs

/-- Strictly between the fractions of entries `i` and `i+1` the scan of `densityAtTemp`
ends with the lower bracket on entry `i` and the upper bracket on entry `i+1`. -/
theorem densityAtTempLoop_strict : ∀ (curve : List (ℚ × ℚ)), CurveIncreasing curve →
    ∀ (i : ℕ) (hi : i + 1 < curve.length) (conc : ℚ) (s : Bracket), s.foundUpper = false →
      curve[i].1 < conc → conc < curve[i + 1].1 →
      densityAtTempLoop conc curve s
        = { lowerConc := curve[i].1, upperConc := curve[i + 1].1,
            lowerDensity := curve[i].2, upperDensity := curve[i + 1].2,
            foundLower := true, foundUpper := true }
  | [], _, i, hi, _, _, _, _, _ => absurd hi (by simp)
  | [_], _, i, hi, _, _, _, _, _ => absurd hi (by simp)
  | (c, d) :: (c1, d1) :: rest, hinc, i, hi, conc, s, hs, h1, h2 => by
    cases i with
    | zero =>
      simp only [List.getElem_cons_succ, List.getElem_cons_zero] at h1 h2 ⊢
      rw [densityAtTempLoop_below conc c d _ s h1]
      exact densityAtTempLoop_above conc c1 d1 rest
        { s with lowerConc := c, lowerDensity := d, foundLower := true } h2 hs
    | succ k =>
      have hlt := (curveIncreasing_lt hinc (Nat.succ_pos k) (by omega : k + 1 < _)).1
      simp only [List.getElem_cons_succ, List.getElem_cons_zero] at hlt h1 h2 ⊢
      rw [densityAtTempLoop_below conc c d _ s (hlt.trans h1)]
      exact densityAtTempLoop_strict ((c1, d1) :: rest) (List.Chain'.tail hinc) k
        (by simp at hi ⊢; omega) conc _ hs h1 h2

theorem concFromTempAndDensityLoop_exact : ∀ (curve : List (ℚ × ℚ)), CurveIncreasing curve →
    ∀ (i : ℕ) (hi : i < curve.length) (s : Bracket), s.foundUpper = false →
      concFromTempAndDensityLoop curve[i].2 curve s
        = { lowerConc := curve[i].1, upperConc := curve[i].1, lowerDensity := curve[i].2,
            upperDensity := curve[i].2, foundLower := true, foundUpper := true }
  | [], _, i, hi, _, _ => absurd hi (by simp)
  | (c, d) :: rest, hinc, i, hi, s, hs => by
    cases i with
    | zero => exact concFromTempAndDensityLoop_hit c d rest s hs
    | succ k =>
      have hlt := (curveIncreasing_lt hinc (Nat.succ_pos k) hi).2
      simp only [List.getElem_cons_succ, List.getElem_cons_zero] at hlt ⊢
      rw [concFromTempAndDensityLoop_below _ c d rest s hlt]
      exact concFromTempAndDensityLoop_exact rest (List.Chain'.tail hinc) k
        (by simp at hi ⊢; omega) _ hs

theorem concFromTempAndDensityLoop_strict : ∀ (curve : List (ℚ × ℚ)), CurveIncreasing curve →
    ∀ (i : ℕ) (hi : i + 1 < curve.length) (density : ℚ) (s : Bracket), s.foundUpper = false →
      curve[i].2 < density → density < curve[i + 1].2 →
      concFromTempAndDensityLoop density curve s
        = { lowerConc := curve[i].1, upperConc := curve[i + 1].1,
            lowerDensity := curve[i].2, upperDensity := curve[i + 1].2,
            foundLower := true, foundUpper := true }
  | [], _, i, hi, _, _, _, _, _ => absurd hi (by simp)
  | [_], _, i, hi, _, _, _, _, _ => absurd hi (by simp)
  | (c, d) :: (c1, d1) :: rest, hinc, i, hi, density, s, hs, h1, h2 => by
    cases i with
    | zero =>
      simp only [List.getElem_cons_succ, List.getElem_cons_zero] at h1 h2 ⊢
      rw [concFromTempAndDensityLoop_below density c d _ s h1]
      exact concFromTempAndDensityLoop_above density c1 d1 rest
        { s with lowerConc := c, lowerDensity := d, foundLower := true } h2 hs
    | succ k =>
      have hlt := (curveIncreasing_lt hinc (Nat.succ_pos k) (by omega : k + 1 < _)).2
      simp only [List.getElem_cons_succ, List.getElem_cons_zero] at hlt h1 h2 ⊢
      rw [concFromTempAndDensityLoop_below density c d _ s (hlt.trans h1)]
      exact concFromTempAndDensityLoop_strict ((c1, d1) :: rest) (List.Chain'.tail hinc) k
        (by simp at hi ⊢; omega) density _ hs h1 h2

/-- Every fraction between entry `0` and entry `j` lies between two consecutive entries. -/
theorem exists_curve_bracket (curve : List (ℚ × ℚ)) (conc : ℚ) :
    ∀ (j : ℕ) (hj : j < curve.length), 0 < j → curve[0].1 ≤ conc → conc ≤ curve[j].1 →
      ∃ (i : ℕ) (hi : i + 1 < curve.length), curve[i].1 ≤ conc ∧ conc ≤ curve[i + 1].1
  | 0, _, h0, _, _ => absurd h0 (lt_irrefl 0)
  | k + 1, hj, _, h1, h2 => by
    by_cases hk : conc ≤ curve[k].1
    · rcases Nat.eq_zero_or_pos k with hz | hpos
      · subst hz
        exact ⟨0, hj, h1, h2⟩
      · exact exists_curve_bracket curve conc k (by omega) hpos h1 hk
    · exact ⟨k, hj, le_of_lt (lt_of_not_ge hk), h2⟩


theorem densityAtTemp_on_entry (T : ℚ) (curve : List (ℚ × ℚ)) (hsel : selectCurve T = curve)
    (hinc : CurveIncreasing curve) (i : ℕ) (hi : i < curve.length) :
    densityAtTemp T curve[i].1 = curve[i].2 := by
  unfold densityAtTemp
  rw [hsel, densityAtTempLoop_exact curve hinc i hi {} rfl]
  simp

theorem concFromTempAndDensity_on_entry (T : ℚ) (curve : List (ℚ × ℚ))
    (hsel : selectCurve T = curve) (hinc : CurveIncreasing curve) (i : ℕ)
    (hi : i < curve.length) :
    concFromTempAndDensity T curve[i].2 = curve[i].1 := by
  unfold concFromTempAndDensity
  rw [hsel, concFromTempAndDensityLoop_exact curve hinc i hi {} rfl]
  simp

theorem densityAtTemp_inside (T : ℚ) (curve : List (ℚ × ℚ)) (hsel : selectCurve T = curve)
    (hinc : CurveIncreasing curve) (i : ℕ) (hi : i + 1 < curve.length) (conc : ℚ)
    (h1 : curve[i].1 < conc) (h2 : conc < curve[i + 1].1) :
    densityAtTemp T conc = curve[i].2
      + (conc - curve[i].1) / (curve[i + 1].1 - curve[i].1) * (curve[i + 1].2 - curve[i].2) := by
  have hne : curve[i].1 ≠ curve[i + 1].1 := (h1.trans h2).ne
  unfold densityAtTemp
  rw [hsel, densityAtTempLoop_strict curve hinc i hi conc {} rfl h1 h2]
  simp [hne]

theorem concFromTempAndDensity_inside (T : ℚ) (curve : List (ℚ × ℚ))
    (hsel : selectCurve T = curve) (hinc : CurveIncreasing curve) (i : ℕ)
    (hi : i + 1 < curve.length) (density : ℚ)
    (h1 : curve[i].2 < density) (h2 : density < curve[i + 1].2) :
    concFromTempAndDensity T density = curve[i].1
      + (density - curve[i].2) / (curve[i + 1].2 - curve[i].2)
        * (curve[i + 1].1 - curve[i].1) := by
  have hne : curve[i].2 ≠ curve[i + 1].2 := (h1.trans h2).ne
  unfold concFromTempAndDensity
  rw [hsel, concFromTempAndDensityLoop_strict curve hinc i hi density {} rfl h1 h2]
  simp [hne]

theorem selectCurve_at_key : ∀ p ∈ densityTable, selectCurve p.1 = p.2 := by
  decide!

theorem densityTable_curve_length : ∀ p ∈ densityTable, 2 ≤ p.2.length := by
  decide!

/-- C19: on the curve of a key temperature `T`, for every `conc` between the first and
the last fraction of that curve (inclusive),
`concFromTempAndDensity T (densityAtTemp T conc) = conc`. -/
theorem density_round_trip (T : ℚ) (curve : List (ℚ × ℚ)) (conc : ℚ)
    (hT : (T, curve) ∈ densityTable) (h0 : 0 < curve.length)
    (h1 : curve[0].1 ≤ conc) (h2 : conc ≤ curve[curve.length - 1].1) :
    concFromTempAndDensity T (densityAtTemp T conc) = conc := by
  have hsel : selectCurve T = curve := selectCurve_at_key (T, curve) hT
  have hlen : 2 ≤ curve.length := densityTable_curve_length (T, curve) hT
  have hinc : CurveIncreasing curve := densityTable_increasing T curve hT
  obtain ⟨i, hi, ha, hb⟩ :=
    exists_curve_bracket curve conc (curve.length - 1) (by omega) (by omega) h1 h2
  rcases ha.eq_or_lt with ha | ha
  · rw [← ha, densityAtTemp_on_entry T curve hsel hinc i (by omega),
      concFromTempAndDensity_on_entry T curve hsel hinc i (by omega)]
  rcases hb.eq_or_lt with hb | hb
  · rw [hb, densityAtTemp_on_entry T curve hsel hinc (i + 1) hi,
      concFromTempAndDensity_on_entry T curve hsel hinc (i + 1) hi]
  have hlt := curveIncreasing_lt hinc (Nat.lt_succ_self i) hi
  have hdc : 0 < curve[i + 1].1 - curve[i].1 := sub_pos.mpr hlt.1
  have hdd : 0 < curve[i + 1].2 - curve[i].2 := sub_pos.mpr hlt.2
  have hr0 : 0 < (conc - curve[i].1) / (curve[i + 1].1 - curve[i].1) :=
    div_pos (sub_pos.mpr ha) hdc
  have hr1 : (conc - curve[i].1) / (curve[i + 1].1 - curve[i].1) < 1 := by
    rw [div_lt_one hdc]; linarith
  have hlo := mul_pos hr0 hdd
  have hhi := mul_lt_mul_of_pos_right hr1 hdd
  rw [densityAtTemp_inside T curve hsel hinc i hi conc ha hb,
    concFromTempAndDensity_inside T curve hsel hinc i hi _ (by linarith) (by linarith)]
  field_simp
  ring

theorem density_round_trip_witness :
    concFromTempAndDensity 20 (densityAtTemp 20 49.5) = 49.5 :=
  density_round_trip 20
    [(0, 1.000), (10, 1.092), (15, 1.142), (20, 1.195), (25, 1.250), (30, 1.308),
      (35, 1.368), (40, 1.431), (45, 1.497), (48, 1.540), (50, 1.569), (51, 1.584),
      (52, 1.599)]
    49.5 (by decide!) (by decide!) (by decide!) (by decide!)


/-- The halving loop computes `⌊log₂ n⌋` whenever its bound exceeds the bit length of `n`,
and `n` itself always does. -/
theorem log2Halving_spec : ∀ (fuel n : ℕ), 1 ≤ n → n < 2 ^ fuel →
    2 ^ log2Halving fuel n ≤ n ∧ n < 2 ^ (log2Halving fuel n + 1)
  | 0, n, h1, h2 => by
    simp only [pow_zero, Nat.lt_one_iff] at h2
    omega
  | fuel + 1, n, h1, h2 => by
    unfold log2Halving
    by_cases hn : n < 2
    · rw [if_pos hn]
      simp only [pow_zero, zero_add, pow_one]
      omega
    · rw [if_neg hn]
      have hhalf : n / 2 < 2 ^ fuel := by
        rw [pow_succ] at h2
        omega
      obtain ⟨ih1, ih2⟩ := log2Halving_spec fuel (n / 2) (by omega) hhalf
      rw [pow_succ, pow_succ]
      rw [pow_succ] at ih2
      constructor <;> omega

theorem log2Halving_self (n : ℕ) (h : 1 ≤ n) :
    2 ^ log2Halving n n ≤ n ∧ n < 2 ^ (log2Halving n n + 1) :=
  log2Halving_spec n n h (Nat.lt_two_pow n)


/-! ## What binary64 rounding changes -/

/-- Values of `roundF64`: decimal constants of the source, a value that is kept, the two
directions of a tie, and a subnormal. -/
theorem roundF64_values :
    roundF64 52.30 = 3680285320491827 / 2 ^ 46 ∧
    roundF64 0.1 = 3602879701896397 / 2 ^ 55 ∧
    roundF64 (1 / 3) = 6004799503160661 / 2 ^ 54 ∧
    roundF64 (-(1 / 3)) = -(6004799503160661 / 2 ^ 54) ∧
    roundF64 1000 = 1000 ∧
    roundF64 (2 ^ 53 + 1) = 2 ^ 53 ∧
    roundF64 (2 ^ 53 + 3) = 2 ^ 53 + 4 ∧
    roundF64 (3 / 2 ^ 1075) = 2 / 2 ^ 1074 := by
  decide!

/-- C2, as stated for the program's own arithmetic, fails.  In binary64 at
`F0 = 1000, w0 = 10, TS = 120, T1_out = 100, T2_out = 80, level3 = 0.5` the propagated `F3`
is `840926675163289 / 2^42` (printed `191.2045889101339`) while `F0 * w0 / 52.30` is
`3363706700653155 / 2^44` (printed `191.20458891013385`); and at the binary64 value
`w0 = 7360570640983653 / 2^47` (printed `52.29999999999999`, below `52.30`) the
propagated `F3` equals `F0 = 1000`. -/
theorem outlet_flow_differs_in_binary64 :
    (calculateEvaporatorF64 1000 10 120 100 80 0.5).F3 = 840926675163289 / 2 ^ 42 ∧
    roundF64 (roundF64 (1000 * 10) / roundF64 52.30) = 3363706700653155 / 2 ^ 44 ∧
    (calculateEvaporatorF64 1000 10 120 100 80 0.5).F3
      ≠ roundF64 (roundF64 (1000 * 10) / roundF64 52.30) ∧
    (calculateEvaporatorF64 1000 10 120 100 80 0.5).F3 ≠ 1000 * 10 / 52.30 ∧
    roundF64 (7360570640983653 / 2 ^ 47) = 7360570640983653 / 2 ^ 47 ∧
    (0 : ℚ) < 7360570640983653 / 2 ^ 47 ∧ (7360570640983653 / 2 ^ 47 : ℚ) < 52.30 ∧
    (7360570640983653 / 2 ^ 47 : ℚ) < roundF64 52.30 ∧
    ¬ ((calculateEvaporatorF64 1000 (7360570640983653 / 2 ^ 47) 120 100 80 0.5).F3 < 1000) := by
  decide!

/-- C5, as stated for the program's own arithmetic, fails.  In binary64 at
`F0 = 1000, w0 = 10, TS = 120, T1_out = 100, T2_out = 80, level3 = 0.5` the result has
`W3 = 1840142660245913 / 2^45` (printed `52.29999999999998`), which is neither `52.30` nor
the binary64 value nearest to it; and at `F0 = 1000, w0 = 25, TS = 130` the products
`W1 * F1`, `W2 * F2`, `W3 * F3` round to `6871947673599999 / 2^38` (printed
`24999.999999999996`) while `W0 * F0 = 25000`. -/
theorem solute_mass_differs_in_binary64 :
    (calculateEvaporatorF64 1000 10 120 100 80 0.5).W3 = 1840142660245913 / 2 ^ 45 ∧
    (calculateEvaporatorF64 1000 10 120 100 80 0.5).W3 ≠ 52.30 ∧
    (calculateEvaporatorF64 1000 10 120 100 80 0.5).W3 ≠ roundF64 52.30 ∧
    roundF64 ((calculateEvaporatorF64 1000 25 130 100 80 0.5).W1
      * (calculateEvaporatorF64 1000 25 130 100 80 0.5).F1) = 6871947673599999 / 2 ^ 38 ∧
    roundF64 ((calculateEvaporatorF64 1000 25 130 100 80 0.5).W2
      * (calculateEvaporatorF64 1000 25 130 100 80 0.5).F2) = 6871947673599999 / 2 ^ 38 ∧
    roundF64 ((calculateEvaporatorF64 1000 25 130 100 80 0.5).W3
      * (calculateEvaporatorF64 1000 25 130 100 80 0.5).F3) = 6871947673599999 / 2 ^ 38 ∧
    (calculateEvaporatorF64 1000 25 130 100 80 0.5).W1
      * (calculateEvaporatorF64 1000 25 130 100 80 0.5).F1 ≠ 25 * 1000 ∧
    roundF64 (25 * 1000) = 25000 ∧ (6871947673599999 / 2 ^ 38 : ℚ) ≠ 25000 := by
  decide!

/-- C20, as stated for the program's own arithmetic, fails.  In binary64 `BPR 30` is
`1114640907774199 / 2^48` (printed `3.9600000000000044`) and `BPR` at the next-but-three
binary64 value `30 + 2^-46` is `2229281815548397 / 2^49` (printed `3.9600000000000026`),
which is smaller. -/
theorem BPR_decreases_in_binary64 :
    roundF64 (30 + 1 / 2 ^ 46) = 30 + 1 / 2 ^ 46 ∧
    (30 : ℚ) < 30 + 1 / 2 ^ 46 ∧
    BPRF64 30 = 1114640907774199 / 2 ^ 48 ∧
    BPRF64 (30 + 1 / 2 ^ 46) = 2229281815548397 / 2 ^ 49 ∧
    ¬ (BPRF64 30 < BPRF64 (30 + 1 / 2 ^ 46)) := by
  decide!


end Evaporator
